import Mathlib

set_option linter.unusedVariables false
set_option maxRecDepth 100000

/-
Verification development for the item-sync engine (src/agent/item_sync.py).

Python strings are modelled as lists of characters (`PyStr`), and the string
methods used by the source (startswith, strip, split, join, find, replace,
the two literal regexes) are given explicit executable definitions mirroring
Python's semantics.  External services (CodeCommit, SSM, AgentCore Memory)
are modelled by an oracle environment `Env`; each helper of the module
becomes a pure function of that environment, and the observable side
effects of a sync run (diff calls, file reads, upsert and delete attempts,
watermark writes, the resulting watermark value) are collected in
`SyncEffects`.
-/

abbrev PyStr := List Char

/-- Python's default whitespace set for str.strip / \s (ASCII part). -/
def pyIsSpace (c : Char) : Bool :=
  c = ' ' || c = '\t' || c = '\n' || c = '\r' || c = '\x0b' || c = '\x0c'

def pyLstrip (s : PyStr) : PyStr := s.dropWhile pyIsSpace

def pyRstrip (s : PyStr) : PyStr := (s.reverse.dropWhile pyIsSpace).reverse

/-- Python s.strip(). -/
def pyStrip (s : PyStr) : PyStr := pyRstrip (pyLstrip s)

/-- Python s.startswith(p).  (Recursion is on the pattern first, so the
    value reduces whenever the pattern is settled.) -/
def pyStartswith : PyStr → PyStr → Bool
  | [], _ => true
  | _ :: _, [] => false
  | a :: as, b :: bs => (a = b) && pyStartswith as bs

/-- Python s.endswith(p). -/
def pyEndswith (p s : PyStr) : Bool := pyStartswith p.reverse s.reverse

/-- Python s.split(sep) for a single-character separator sep. -/
def pySplitChar (sep : Char) : PyStr → List PyStr
  | [] => [[]]
  | c :: rest =>
    match pySplitChar sep rest with
    | [] => [[]]
    | h :: t => if c = sep then [] :: h :: t else (c :: h) :: t

/-- Python sep.join(parts). -/
def pyJoin (sep : PyStr) : List PyStr → PyStr
  | [] => []
  | [x] => x
  | x :: y :: t => x ++ sep ++ pyJoin sep (y :: t)

/-- Index of the first occurrence of the literal pattern pat in s
    (Python re.search for a literal pattern / str.find). -/
def pyFindSub (pat : PyStr) : PyStr → Option Nat
  | [] => if pat = [] then some 0 else none
  | c :: rest =>
    if pyStartswith pat (c :: rest) then some 0
    else (pyFindSub pat rest).map (fun n => n + 1)

/-- Python (pat in s). -/
def pyIn (pat s : PyStr) : Bool := (pyFindSub pat s).isSome

/-- Fuel-driven worker for pyRemoveAll (fuel makes it structural). -/
def pyRemoveAllF (pat : PyStr) : Nat → PyStr → PyStr
  | _, [] => []
  | 0, s => s
  | fuel + 1, c :: rest =>
    if pat ≠ [] ∧ pyStartswith pat (c :: rest) = true then
      pyRemoveAllF pat fuel (List.drop (pat.length - 1) rest)
    else c :: pyRemoveAllF pat fuel rest

/-- Python s.replace(pat, ''): removes every occurrence of pat. -/
def pyRemoveAll (pat s : PyStr) : PyStr := pyRemoveAllF pat s.length s

/-- Python list[-1] on the (never empty) result of str.split. -/
def pyLastD (l : List PyStr) : PyStr := l.getLastD []

/-- ASCII reading of Python's regex \w class. -/
def isWordChar (c : Char) : Bool := c.isAlphanum || c = '_'

/-- Python re.match of the front-matter line pattern: a leading run of word
    characters, a colon, optional whitespace, then the rest of the line.
    Returns (group 1, group 2). -/
def pyKeyVal (line : PyStr) : Option (PyStr × PyStr) :=
  let key := line.takeWhile isWordChar
  if key.isEmpty then none
  else
    match line.drop key.length with
    | ':' :: rest => some (key, pyLstrip rest)
    | _ => none

/-- Python value[1:-1] based quote removal used by the simple YAML parser. -/
def unquote (v : PyStr) : PyStr :=
  if pyStartswith "\"".toList v ∧ pyEndswith "\"".toList v then
    (v.drop 1).dropLast
  else if pyStartswith "'".toList v ∧ pyEndswith "'".toList v then
    (v.drop 1).dropLast
  else v

/-- One character of the class [a-f0-9]. -/
def isLowerHex (c : Char) : Bool :=
  (('0' ≤ c) && (c ≤ '9')) || (('a' ≤ c) && (c ≤ 'f'))

/-- Full match of the identifier pattern sb-[a-f0-9]{7}. -/
def sbIdCore (s : PyStr) : Bool :=
  match s with
  | 's' :: 'b' :: '-' :: rest => rest.length == 7 && rest.all isLowerHex
  | _ => false

/-- Python re.match with an anchored dollar: the dollar also matches just
    before one trailing newline. -/
def sbIdMatch (s : PyStr) : Bool :=
  sbIdCore s || (pyEndswith "\n".toList s && sbIdCore s.dropLast)

/-- A value held in the parsed front-matter dict: the simple YAML parser
    produces either a string or a list of strings. -/
inductive PyVal where
  | vstr (s : PyStr)
  | vlist (l : List PyStr)
deriving DecidableEq

/-- Python str() rendering of a parsed value, as used by f-strings.
    (List rendering ignores Python's quote-escaping corner cases.) -/
def pyReprList (l : List PyStr) : PyStr :=
  "[".toList ++ pyJoin ", ".toList (l.map (fun s => "'".toList ++ s ++ "'".toList)) ++ "]".toList

def pyStr : PyVal → PyStr
  | .vstr s => s
  | .vlist l => pyReprList l

/-- Python truthiness of a parsed value. -/
def pyValTruthy : PyVal → Bool
  | .vstr s => !s.isEmpty
  | .vlist l => !l.isEmpty

/-- Python truthiness of dict.get(k) (None is falsy). -/
def pyOptTruthy : Option PyVal → Bool
  | none => false
  | some v => pyValTruthy v

/-- An insertion-ordered dict, as Python's. -/
abbrev PyDict := List (PyStr × PyVal)

def dictGet (d : PyDict) (k : PyStr) : Option PyVal :=
  match d.find? (fun kv => kv.1 = k) with
  | some kv => some kv.2
  | none => none

/-- Python d[k] = v: update in place if the key exists, else append. -/
def dictSet (d : PyDict) (k : PyStr) (v : PyVal) : PyDict :=
  match d with
  | [] => [(k, v)]
  | (k', v') :: rest =>
    if k' = k then (k, v) :: rest else (k', v') :: dictSet rest k v

/-- current_list.append(value): appends to the list bound at key k. -/
def dictAppendAt (d : PyDict) (k : PyStr) (v : PyStr) : PyDict :=
  match d with
  | [] => []
  | (k', .vlist l) :: rest =>
    if k' = k then (k', .vlist (l ++ [v])) :: rest
    else (k', .vlist l) :: dictAppendAt rest k v
  | (k', v') :: rest =>
    if k' = k then (k', v') :: rest else (k', v') :: dictAppendAt rest k v

/-! ## Data model (ItemMetadata, SyncResult, HealthReport) -/

/-- Metadata extracted from a knowledge item file.  The title, type and
    status fields hold whatever object the front-matter parser produced
    (Python does not enforce the dataclass annotations). -/
structure ItemMetadata where
  sb_id : PyStr
  title : PyVal
  item_type : PyVal
  path : PyStr
  tags : List PyStr
  status : Option PyVal
deriving DecidableEq

/-- ItemMetadata.to_memory_text. -/
def ItemMetadata.to_memory_text (m : ItemMetadata) : PyStr :=
  let lines := ["Item: ".toList ++ pyStr m.title,
                "ID: ".toList ++ m.sb_id,
                "Type: ".toList ++ pyStr m.item_type,
                "Path: ".toList ++ m.path]
  let lines := if m.tags.isEmpty then lines
               else lines ++ ["Tags: ".toList ++ pyJoin ", ".toList m.tags]
  let lines := match m.status with
               | some v => if pyValTruthy v then lines ++ ["Status: ".toList ++ pyStr v] else lines
               | none => lines
  pyJoin "\n".toList lines

structure SyncResult where
  success : Bool
  items_synced : Nat
  items_deleted : Nat
  new_commit_id : Option PyStr
  error : Option PyStr
deriving DecidableEq

structure HealthReport where
  codecommit_count : Nat
  memory_count : Nat
  in_sync : Bool
  last_sync_timestamp : Option PyStr
  last_sync_commit_id : Option PyStr
  missing_in_memory : List PyStr
  extra_in_memory : List PyStr
deriving DecidableEq

/-- The only exception the pure metadata path can raise: re.match applied to
    a non-string (a YAML list) raises TypeError. -/
inductive PyErr where
  | typeError
deriving DecidableEq

deriving instance DecidableEq for Except

/-- Python str(e) for the exceptions the model can raise. -/
def pyErrText : PyErr → PyStr
  | .typeError => "expected string or bytes-like object".toList

/-! ## Front-matter parsing (parse_front_matter, _parse_simple_yaml,
       extract_item_metadata) -/

/-- One step of the line loop of _parse_simple_yaml.  The state is the dict
    built so far together with the key whose list is being collected
    (current_key/current_list in the source). -/
def yamlStep (st : PyDict × Option PyStr) (line : PyStr) : PyDict × Option PyStr :=
  let result := st.1
  let curr := st.2
  if (pyStrip line).isEmpty then (result, curr)
  else if pyStartswith "  - ".toList line then
    match curr with
    | some k =>
      let value := unquote (pyStrip (line.drop 4))
      (dictAppendAt result k value, some k)
    | none => (result, none)
  else
    match pyKeyVal line with
    | some (key, group2) =>
      let value := pyStrip group2
      if value.isEmpty then (dictSet result key (.vlist []), some key)
      else (dictSet result key (.vstr (unquote value)), none)
    | none => (result, curr)

/-- _parse_simple_yaml. -/
def parse_simple_yaml (yaml_text : PyStr) : PyDict :=
  ((pySplitChar '\n' yaml_text).foldl yamlStep ([], none)).1

/-- parse_front_matter.  (Its try/except around the simple YAML parser is
    dead: the parser performs no raising operation.) -/
def parse_front_matter (content : PyStr) : Option PyDict :=
  if !pyStartswith "---\n".toList content then none
  else
    let body := content.drop 4
    match pyFindSub "\n\n---\n".toList body with
    | some i => some (parse_simple_yaml (body.take i))
    | none =>
      match pyFindSub "\n---\n".toList body with
      | some i => some (parse_simple_yaml (body.take i))
      | none => none

/-- extract_item_metadata.  A list-valued id reaches re.match and raises
    TypeError; every other path returns normally. -/
def extract_item_metadata (file_path content : PyStr) :
    Except PyErr (Option ItemMetadata) :=
  match parse_front_matter content with
  | none => .ok none
  | some front_matter =>
    if front_matter.isEmpty then .ok none
    else
      let sb_id := dictGet front_matter "id".toList
      let title := dictGet front_matter "title".toList
      let item_type := dictGet front_matter "type".toList
      if !(pyOptTruthy sb_id && pyOptTruthy title && pyOptTruthy item_type) then .ok none
      else
        match sb_id, title, item_type with
        | some (.vlist _), _, _ => .error .typeError
        | some (.vstr s), some titleV, some typeV =>
          if !sbIdMatch s then .ok none
          else
            let tags := match dictGet front_matter "tags".toList with
                        | some (.vlist l) => l
                        | _ => []
            let status := if typeV = .vstr "project".toList
                          then dictGet front_matter "status".toList
                          else none
            .ok (some { sb_id := s, title := titleV, item_type := typeV,
                        path := file_path, tags := tags, status := status })
        | _, _, _ => .ok none

/-! ## _parse_memory_item -/

/-- Field accumulator of the _parse_memory_item line loop. -/
structure MemParseState where
  title : Option PyStr
  sb_id : Option PyStr
  item_type : Option PyStr
  path : Option PyStr
  tags : List PyStr
  status : Option PyStr
deriving DecidableEq

def memParseInit : MemParseState :=
  { title := none, sb_id := none, item_type := none, path := none,
    tags := [], status := none }

/-- One line of the _parse_memory_item loop. -/
def memStep (st : MemParseState) (line : PyStr) : MemParseState :=
  if pyStartswith "Item: ".toList line then
    { st with title := some (pyStrip (line.drop 6)) }
  else if pyStartswith "ID: ".toList line then
    { st with sb_id := some (pyStrip (line.drop 4)) }
  else if pyStartswith "Type: ".toList line then
    { st with item_type := some (pyStrip (line.drop 6)) }
  else if pyStartswith "Path: ".toList line then
    { st with path := some (pyStrip (line.drop 6)) }
  else if pyStartswith "Tags: ".toList line then
    let tags_str := pyStrip (line.drop 6)
    { st with tags := ((pySplitChar ',' tags_str).map pyStrip).filter (fun t => !t.isEmpty) }
  else if pyStartswith "Status: ".toList line then
    { st with status := some (pyStrip (line.drop 8)) }
  else st

/-- Python truthiness of an optional string. -/
def pyOptStrTruthy : Option PyStr → Bool
  | none => false
  | some s => !s.isEmpty

/-- _parse_memory_item. -/
def parse_memory_item (content : PyStr) : Option ItemMetadata :=
  if pyIn "Last synced commit:".toList content then none
  else
    let lines := pySplitChar '\n' (pyStrip content)
    let st := lines.foldl memStep memParseInit
    if !(pyOptStrTruthy st.title && pyOptStrTruthy st.sb_id &&
         pyOptStrTruthy st.item_type && pyOptStrTruthy st.path) then none
    else
      match st.title, st.sb_id, st.item_type, st.path with
      | some title, some sb_id, some item_type, some path =>
        if !sbIdMatch sb_id then none
        else some { sb_id := sb_id, title := .vstr title, item_type := .vstr item_type,
                    path := path, tags := st.tags, status := st.status.map .vstr }
      | _, _, _, _ => none

/-! ## The oracle environment and the sync engine -/

/-- One entry of the GetDifferences response. -/
structure DiffEntry where
  afterBlob : Option PyStr
  beforeBlob : Option PyStr
  changeType : PyStr
deriving DecidableEq

/-- A changed file as produced by get_changed_files. -/
structure FileChange where
  path : PyStr
  change_type : PyStr
deriving DecidableEq

/-- Outcomes of the external calls made during one invocation.  A `none`
    (or `false`) outcome covers both an unavailable client and a raised
    client exception, since every call site catches and degrades. -/
structure Env where
  /-- get_branch outcome (None: get_codecommit_head caught an error). -/
  head : Option PyStr
  /-- get_parameter outcome for the sync marker (None: the call failed). -/
  ssmValue : Option PyStr
  /-- whether get_differences succeeds. -/
  diffOk : Bool
  /-- the differences returned when it succeeds. -/
  differences : List DiffEntry
  /-- get_folder outcome per folder (None: missing folder or error). -/
  folderFiles : PyStr → Option (List PyStr)
  /-- get_file outcome per path (None: the call failed). -/
  fileContent : PyStr → Option PyStr
  /-- store_item_in_memory outcome per sb_id (False also covers the missing
      memory client). -/
  storeOk : PyStr → Bool
  /-- whether put_parameter for the sync marker succeeds. -/
  setMarkerOk : Bool
  /-- list_memory_records outcome: the stored record texts, or None when the
      memory client is missing or the call failed. -/
  memoryList : Option (List PyStr)

/-- get_codecommit_head. -/
def get_codecommit_head (env : Env) : Option PyStr := env.head

/-- get_sync_marker: the stored value, with the sentinel 'initial' mapped to
    None, and None on a failed read. -/
def get_sync_marker (env : Env) : Option PyStr :=
  match env.ssmValue with
  | none => none
  | some v => if v = "initial".toList then none else some v

/-- set_sync_marker: returns the success flag and the resulting stored
    value (unchanged when the write fails). -/
def set_sync_marker (env : Env) (commit_id : PyStr) : Bool × Option PyStr :=
  if env.setMarkerOk then (true, some commit_id) else (false, env.ssmValue)

/-- delete_item_from_memory: no delete API exists; the call only logs and
    always reports success. -/
def delete_item_from_memory (actor_id sb_id : PyStr) : Bool := true

def ITEM_FOLDERS : List PyStr :=
  ["10-ideas/".toList, "20-decisions/".toList, "30-projects/".toList]

/-- The path filter of get_changed_files: a tracked folder and the .md
    extension. -/
def inItemFolders (p : PyStr) : Bool :=
  ITEM_FOLDERS.any (fun folder => pyStartswith folder p)

/-- The per-entry logic of get_changed_files over a GetDifferences
    response. -/
def filterDifferences (diffs : List DiffEntry) : List FileChange :=
  diffs.filterMap (fun d =>
    match d.afterBlob with
    | some p =>
      if inItemFolders p && pyEndswith ".md".toList p then
        some { path := p,
               change_type := if d.changeType = "A".toList then "A".toList else "M".toList }
      else none
    | none =>
      match d.beforeBlob with
      | some p =>
        if inItemFolders p && pyEndswith ".md".toList p then
          some { path := p, change_type := "D".toList }
        else none
      | none => none)

/-- _get_all_item_files: per-folder listing, each failure skipped. -/
def get_all_item_files (env : Env) (commit_id : PyStr) : List FileChange :=
  ITEM_FOLDERS.flatMap (fun folder =>
    match env.folderFiles folder with
    | none => []
    | some paths =>
      paths.filterMap (fun p =>
        if pyEndswith ".md".toList p && !pyEndswith ".gitkeep".toList p then
          some { path := p, change_type := "A".toList }
        else none))

/-- get_changed_files: on a diff failure the exception is caught and an
    empty change list is returned. -/
def get_changed_files (env : Env) (old_commit : Option PyStr) (new_commit : PyStr) :
    List FileChange :=
  match old_commit with
  | none => get_all_item_files env new_commit
  | some _ => if env.diffOk then filterDifferences env.differences else []

/-- get_file_content. -/
def get_file_content (env : Env) (file_path : PyStr) : Option PyStr :=
  env.fileContent file_path

/-- store_item_in_memory. -/
def store_item_in_memory (env : Env) (actor_id : PyStr) (item : ItemMetadata) : Bool :=
  env.storeOk item.sb_id

/-- Counter state of one sync pass. -/
structure LoopSt where
  synced : Nat
  deleted : Nat
  fileReads : Nat
  /-- sb_ids of attempted upserts. -/
  upserts : List PyStr
  /-- ids passed to delete_item_from_memory. -/
  deletes : List PyStr
deriving DecidableEq

def loopInit : LoopSt :=
  { synced := 0, deleted := 0, fileReads := 0, upserts := [], deletes := [] }

/-- The delta-sync file loop of sync_items.  An exception raised by
    extract_item_metadata aborts the loop (it propagates to the outer
    try of sync_items). -/
def processChanged (env : Env) (actor_id : PyStr) :
    List FileChange → LoopSt → Except (PyErr × LoopSt) LoopSt
  | [], st => .ok st
  | f :: rest, st =>
    if f.change_type = "D".toList then
      let sb_id_match := pyRemoveAll ".md".toList (pyLastD (pySplitChar '/' f.path))
      if pyStartswith "sb-".toList sb_id_match then
        processChanged env actor_id rest
          { st with deleted := st.deleted + 1, deletes := st.deletes ++ [sb_id_match] }
      else processChanged env actor_id rest st
    else
      let st := { st with fileReads := st.fileReads + 1 }
      match env.fileContent f.path with
      | none => processChanged env actor_id rest st
      | some content =>
        match extract_item_metadata f.path content with
        | .error e => .error (e, st)
        | .ok none => processChanged env actor_id rest st
        | .ok (some metadata) =>
          let st := { st with upserts := st.upserts ++ [metadata.sb_id] }
          if store_item_in_memory env actor_id metadata then
            processChanged env actor_id rest { st with synced := st.synced + 1 }
          else processChanged env actor_id rest st

/-- The full-sync file loop of sync_items (no delete handling). -/
def processAll (env : Env) (actor_id : PyStr) :
    List FileChange → LoopSt → Except (PyErr × LoopSt) LoopSt
  | [], st => .ok st
  | f :: rest, st =>
    let st := { st with fileReads := st.fileReads + 1 }
    match env.fileContent f.path with
    | none => processAll env actor_id rest st
    | some content =>
      match extract_item_metadata f.path content with
      | .error e => .error (e, st)
      | .ok none => processAll env actor_id rest st
      | .ok (some metadata) =>
        let st := { st with upserts := st.upserts ++ [metadata.sb_id] }
        if store_item_in_memory env actor_id metadata then
          processAll env actor_id rest { st with synced := st.synced + 1 }
        else processAll env actor_id rest st

/-- Observable effects of one sync_items invocation. -/
structure SyncEffects where
  diffCalls : Nat
  fileReads : Nat
  upserts : List PyStr
  deletes : List PyStr
  /-- values passed to set_sync_marker. -/
  markerWrites : List PyStr
  /-- the stored watermark after the invocation. -/
  ssmAfter : Option PyStr
deriving DecidableEq

/-- sync_items. -/
def sync_items (env : Env) (actor_id : PyStr) : SyncResult × SyncEffects :=
  match env.head with
  | none =>
    ({ success := false, items_synced := 0, items_deleted := 0,
       new_commit_id := none,
       error := some "Failed to get CodeCommit HEAD commit".toList },
     { diffCalls := 0, fileReads := 0, upserts := [], deletes := [],
       markerWrites := [], ssmAfter := env.ssmValue })
  | some head_commit =>
    let last_sync_commit := get_sync_marker env
    let truthy := match last_sync_commit with
                  | some w => !w.isEmpty
                  | none => false
    if truthy && !(last_sync_commit = some head_commit) then
      -- delta sync
      let changed_files := get_changed_files env last_sync_commit head_commit
      match processChanged env actor_id changed_files loopInit with
      | .error (e, st) =>
        ({ success := false, items_synced := 0, items_deleted := 0,
           new_commit_id := none, error := some (pyErrText e) },
         { diffCalls := 1, fileReads := st.fileReads, upserts := st.upserts,
           deletes := st.deletes, markerWrites := [], ssmAfter := env.ssmValue })
      | .ok st =>
        let marker := set_sync_marker env head_commit
        ({ success := true, items_synced := st.synced, items_deleted := st.deleted,
           new_commit_id := some head_commit, error := none },
         { diffCalls := 1, fileReads := st.fileReads, upserts := st.upserts,
           deletes := st.deletes, markerWrites := [head_commit], ssmAfter := marker.2 })
    else if last_sync_commit = some head_commit then
      -- already in sync
      ({ success := true, items_synced := 0, items_deleted := 0,
         new_commit_id := some head_commit, error := none },
       { diffCalls := 0, fileReads := 0, upserts := [], deletes := [],
         markerWrites := [], ssmAfter := env.ssmValue })
    else
      -- full sync (no marker)
      let all_files := get_all_item_files env head_commit
      match processAll env actor_id all_files loopInit with
      | .error (e, st) =>
        ({ success := false, items_synced := 0, items_deleted := 0,
           new_commit_id := none, error := some (pyErrText e) },
         { diffCalls := 0, fileReads := st.fileReads, upserts := st.upserts,
           deletes := st.deletes, markerWrites := [], ssmAfter := env.ssmValue })
      | .ok st =>
        let marker := set_sync_marker env head_commit
        ({ success := true, items_synced := st.synced, items_deleted := 0,
           new_commit_id := some head_commit, error := none },
         { diffCalls := 0, fileReads := st.fileReads, upserts := st.upserts,
           deletes := st.deletes, markerWrites := [head_commit], ssmAfter := marker.2 })

/-- sync_single_item: store_ok is the outcome of the one store attempt
    (False also covers a missing memory client). -/
def sync_single_item (store_ok : Bool) (actor_id file_path content : PyStr) : SyncResult :=
  match extract_item_metadata file_path content with
  | .error e =>
    { success := false, items_synced := 0, items_deleted := 0,
      new_commit_id := none, error := some (pyErrText e) }
  | .ok none =>
    { success := false, items_synced := 0, items_deleted := 0,
      new_commit_id := none,
      error := some ("Failed to extract metadata from ".toList ++ file_path) }
  | .ok (some metadata) =>
    if store_ok then
      { success := true, items_synced := 1, items_deleted := 0,
        new_commit_id := none, error := none }
    else
      { success := false, items_synced := 0, items_deleted := 0,
        new_commit_id := none,
        error := some ("Failed to store item ".toList ++ metadata.sb_id ++
                       " in Memory".toList) }

/-! ## Health check (get_all_codecommit_items, get_all_memory_items,
       get_health_report) -/

/-- The file loop of get_all_codecommit_items.  An exception raised by
    extract_item_metadata is caught by the function's own handler, which
    returns the items accumulated so far. -/
def collectCodecommitItems (env : Env) :
    List FileChange → List ItemMetadata → List ItemMetadata
  | [], acc => acc.reverse
  | f :: rest, acc =>
    match env.fileContent f.path with
    | none => collectCodecommitItems env rest acc
    | some content =>
      match extract_item_metadata f.path content with
      | .error _ => acc.reverse
      | .ok none => collectCodecommitItems env rest acc
      | .ok (some m) => collectCodecommitItems env rest (m :: acc)

/-- get_all_codecommit_items: every failure degrades to the items gathered
    so far (an empty list when the head lookup fails). -/
def get_all_codecommit_items (env : Env) : List ItemMetadata :=
  match get_codecommit_head env with
  | none => []
  | some head_commit =>
    collectCodecommitItems env (get_all_item_files env head_commit) []

/-- get_all_memory_items: a missing client or a failed listing degrades to
    an empty list; records that fail to parse are skipped. -/
def get_all_memory_items (env : Env) (actor_id : PyStr) : List ItemMetadata :=
  match env.memoryList with
  | none => []
  | some texts => texts.filterMap parse_memory_item

/-- Python list(set(...)): set membership is modelled by first-occurrence
    deduplication (the actual enumeration order of a Python set is
    unspecified; every property proved below is order-insensitive). -/
def pySetList (l : List PyStr) : List PyStr := l.dedup

/-- The pure comparison step of get_health_report, applied to whatever the
    two enumerations produced. -/
def health_from (codecommit_items memory_items : List ItemMetadata)
    (head : Option PyStr) : HealthReport :=
  let codecommit_sb_ids := pySetList (codecommit_items.map ItemMetadata.sb_id)
  let memory_sb_ids := pySetList (memory_items.map ItemMetadata.sb_id)
  let missing_in_memory :=
    (codecommit_sb_ids.filter (fun x => !memory_sb_ids.contains x)).take 10
  let extra_in_memory :=
    (memory_sb_ids.filter (fun x => !codecommit_sb_ids.contains x)).take 10
  { codecommit_count := codecommit_items.length,
    memory_count := memory_items.length,
    in_sync := missing_in_memory.length == 0 && extra_in_memory.length == 0,
    last_sync_timestamp := none,
    last_sync_commit_id := head,
    missing_in_memory := missing_in_memory,
    extra_in_memory := extra_in_memory }

/-- get_health_report.  (Its outer try/except is dead: both enumerators
    catch internally and the set arithmetic cannot raise.) -/
def get_health_report (env : Env) (actor_id : PyStr) : HealthReport :=
  health_from (get_all_codecommit_items env) (get_all_memory_items env actor_id)
    (get_codecommit_head env)

/-! ## Spec-side definition used for comparison (deleted-path identifiers) -/

/-- The deleted-path identifier recovery that the specification describes:
    search the filename for the first occurrence of the fixed pattern
    sb-[a-f0-9]{7}.  Stated from the spec's words so it can be compared
    with the code's replace/startswith recovery in sync_items. -/
def specFindSbId : PyStr → Option PyStr
  | [] => none
  | c :: rest =>
    if sbIdCore ((c :: rest).take 10) then some ((c :: rest).take 10)
    else specFindSbId rest

/-! ## Claims C1, C2, C3, C7, C10 -/

/-- C1: when sync_items reads a watermark equal to the current head
    revision, it performs zero diff calls, zero file reads and zero index
    upsert/delete attempts, writes no watermark, and returns a successful
    SyncResult with zero counts and new_commit_id equal to head. -/
theorem sync_items_noop_when_watermark_equals_head
    (env : Env) (actor_id head : PyStr)
    (hhead : env.head = some head)
    (hmarker : get_sync_marker env = some head) :
    sync_items env actor_id =
      ({ success := true, items_synced := 0, items_deleted := 0,
         new_commit_id := some head, error := none },
       { diffCalls := 0, fileReads := 0, upserts := [], deletes := [],
         markerWrites := [], ssmAfter := env.ssmValue }) := by
  unfold sync_items
  rw [hhead]
  simp [hmarker]

def envC1 : Env :=
  { head := some "abc1234".toList, ssmValue := some "abc1234".toList,
    diffOk := true, differences := [], folderFiles := fun _ => none,
    fileContent := fun _ => none, storeOk := fun _ => true,
    setMarkerOk := true, memoryList := none }

/-- C1 witness: the no-op fast path at a concrete environment. -/
theorem sync_items_noop_witness :
    sync_items envC1 "test-actor".toList =
      ({ success := true, items_synced := 0, items_deleted := 0,
         new_commit_id := some "abc1234".toList, error := none },
       { diffCalls := 0, fileReads := 0, upserts := [], deletes := [],
         markerWrites := [], ssmAfter := some "abc1234".toList }) :=
  sync_items_noop_when_watermark_equals_head envC1 "test-actor".toList
    "abc1234".toList rfl (by decide)

def envC2 : Env :=
  { head := some "bbb".toList, ssmValue := some "aaa".toList, diffOk := false,
    differences := [], folderFiles := fun _ => none, fileContent := fun _ => none,
    storeOk := fun _ => true, setMarkerOk := true, memoryList := none }

/-- C2 counterexample: with a watermark aaa, head bbb and a failing diff,
    sync_items does not abort: it reports success and moves the stored
    watermark from aaa to bbb, contradicting the claim that a diff failure
    yields a failed SyncResult and leaves the watermark unmoved. -/
theorem sync_items_diff_failure_counterexample :
    envC2.diffOk = false ∧
    envC2.ssmValue = some "aaa".toList ∧
    (sync_items envC2 "test-actor".toList).1.success = true ∧
    (sync_items envC2 "test-actor".toList).1.error = none ∧
    (sync_items envC2 "test-actor".toList).2.ssmAfter = some "bbb".toList := by
  decide

/-- C2 amended: when the watermark exists, is non-empty and differs from
    head, and obtaining the change set fails, sync_items swallows the
    failure: it treats the delta as empty, returns a successful SyncResult
    with zero counts and new_commit_id = head, performs no file reads or
    index writes, and still writes head as the new watermark (the stored
    value becomes head whenever the marker write itself succeeds). -/
theorem sync_items_diff_failure_swallowed
    (env : Env) (actor_id head w : PyStr)
    (hhead : env.head = some head)
    (hmarker : get_sync_marker env = some w)
    (hw : w ≠ []) (hne : w ≠ head)
    (hdiff : env.diffOk = false) :
    sync_items env actor_id =
      ({ success := true, items_synced := 0, items_deleted := 0,
         new_commit_id := some head, error := none },
       { diffCalls := 1, fileReads := 0, upserts := [], deletes := [],
         markerWrites := [head],
         ssmAfter := if env.setMarkerOk then some head else env.ssmValue }) := by
  unfold sync_items
  rw [hhead]
  simp [hmarker, hw, hne, get_changed_files, hdiff, processChanged, loopInit,
    set_sync_marker]
  split <;> rfl

/-- C2 witness for the amended claim, at a concrete environment. -/
theorem sync_items_diff_failure_witness :
    sync_items envC2 "test-actor".toList =
      ({ success := true, items_synced := 0, items_deleted := 0,
         new_commit_id := some "bbb".toList, error := none },
       { diffCalls := 1, fileReads := 0, upserts := [], deletes := [],
         markerWrites := ["bbb".toList],
         ssmAfter := if envC2.setMarkerOk then some "bbb".toList else envC2.ssmValue }) :=
  sync_items_diff_failure_swallowed envC2 "test-actor".toList "bbb".toList
    "aaa".toList rfl (by decide) (by decide) (by decide) rfl

def envC3 : Env :=
  { head := none, ssmValue := none, diffOk := true, differences := [],
    folderFiles := fun _ => none, fileContent := fun _ => none,
    storeOk := fun _ => true, setMarkerOk := true, memoryList := none }

/-- C3 counterexample: when both enumeration steps fail (head lookup fails
    and the memory listing fails), get_health_report returns zero counts
    but in_sync = true, contradicting the claim that any enumeration
    failure yields in_sync = false. -/
theorem health_report_failure_counterexample :
    envC3.head = none ∧
    envC3.memoryList = none ∧
    get_health_report envC3 "test-actor".toList =
      { codecommit_count := 0, memory_count := 0, in_sync := true,
        last_sync_timestamp := none, last_sync_commit_id := none,
        missing_in_memory := [], extra_in_memory := [] } := by
  decide

/-- C3 amended: enumeration failures are swallowed inside the enumerators,
    which degrade to empty item lists, and get_health_report (a total
    function here, so no exception can propagate) then reports the
    comparison of those lists: when both the source head lookup and the
    index listing fail, the report has zero counts, empty difference lists
    and in_sync = true, not false. -/
theorem health_report_total_failure
    (env : Env) (actor_id : PyStr)
    (hh : env.head = none) (hm : env.memoryList = none) :
    get_health_report env actor_id =
      { codecommit_count := 0, memory_count := 0, in_sync := true,
        last_sync_timestamp := none, last_sync_commit_id := none,
        missing_in_memory := [], extra_in_memory := [] } := by
  unfold get_health_report get_all_codecommit_items get_all_memory_items
    get_codecommit_head
  rw [hh, hm]
  rfl

/-- C3 witness for the amended claim, at a concrete environment. -/
theorem health_report_total_failure_witness :
    get_health_report envC3 "test-actor".toList =
      { codecommit_count := 0, memory_count := 0, in_sync := true,
        last_sync_timestamp := none, last_sync_commit_id := none,
        missing_in_memory := [], extra_in_memory := [] } :=
  health_report_total_failure envC3 "test-actor".toList rfl rfl

def envC7 : Env :=
  { head := some "bbb".toList, ssmValue := some "aaa".toList, diffOk := true,
    differences := [{ afterBlob := none,
                      beforeBlob := some "10-ideas/2025-01-20__home__sb-a7f3c2d.md".toList,
                      changeType := "D".toList }],
    folderFiles := fun _ => none, fileContent := fun _ => none,
    storeOk := fun _ => true, setMarkerOk := true, memoryList := none }

/-- C7 counterexample: a deleted path whose filename contains the
    identifier sb-a7f3c2d (the spec-side pattern search finds it) is
    nevertheless skipped by sync_items, because the code tests whether the
    whole filename with '.md' removed starts with 'sb-', not whether the
    pattern occurs in it. -/
theorem sync_items_deleted_path_counterexample :
    specFindSbId "2025-01-20__home__sb-a7f3c2d.md".toList =
      some "sb-a7f3c2d".toList ∧
    (sync_items envC7 "test-actor".toList).1.success = true ∧
    (sync_items envC7 "test-actor".toList).1.items_deleted = 0 ∧
    (sync_items envC7 "test-actor".toList).2.deletes = [] := by
  decide

/-- C7 amended: for a deleted tracked path the identifier used is the
    filename with every '.md' occurrence removed, and the record is marked
    for removal iff that string starts with 'sb-'; otherwise the deletion
    is skipped and the sync pass still succeeds.  No pattern match for the
    full identifier shape is performed. -/
theorem sync_items_deletion_by_filename
    (env : Env) (actor_id head w p : PyStr)
    (hhead : env.head = some head)
    (hmarker : get_sync_marker env = some w)
    (hw : w ≠ []) (hne : w ≠ head)
    (hdiff : env.diffOk = true)
    (hdiffs : env.differences =
      [{ afterBlob := none, beforeBlob := some p, changeType := "D".toList }])
    (hfolder : inItemFolders p = true)
    (hmd : pyEndswith ".md".toList p = true) :
    (sync_items env actor_id).1.success = true ∧
    (sync_items env actor_id).1.items_deleted =
      (if pyStartswith "sb-".toList (pyRemoveAll ".md".toList (pyLastD (pySplitChar '/' p)))
       then 1 else 0) ∧
    (sync_items env actor_id).2.deletes =
      (if pyStartswith "sb-".toList (pyRemoveAll ".md".toList (pyLastD (pySplitChar '/' p)))
       then [pyRemoveAll ".md".toList (pyLastD (pySplitChar '/' p))] else []) ∧
    (sync_items env actor_id).2.fileReads = 0 := by
  have hfolder2 := hfolder
  have hmd2 := hmd
  simp at hfolder2 hmd2
  have hfd : filterDifferences env.differences =
      [{ path := p, change_type := "D".toList }] := by
    rw [hdiffs]
    simp [filterDifferences, List.filterMap_cons, hfolder2, hmd2]
  have hpc : ∀ st, processChanged env actor_id
      [{ path := p, change_type := "D".toList }] st =
      .ok (if pyStartswith "sb-".toList (pyRemoveAll ".md".toList (pyLastD (pySplitChar '/' p)))
           then { st with deleted := st.deleted + 1,
                          deletes := st.deletes ++
                            [pyRemoveAll ".md".toList (pyLastD (pySplitChar '/' p))] }
           else st) := by
    intro st
    simp [processChanged]
    split <;> rfl
  simp at hpc
  unfold sync_items
  rw [hhead]
  simp [hmarker, hw, hne, get_changed_files, hdiff, hfd, hpc, loopInit,
    set_sync_marker]
  split <;> simp

def envC7b : Env :=
  { envC7 with differences := [{ afterBlob := none,
                                 beforeBlob := some "10-ideas/sb-zzz.md".toList,
                                 changeType := "D".toList }] }

/-- C7 witness for the amended claim: a filename that startswith sb- after
    stripping '.md' is deleted under exactly that recovered identifier. -/
theorem sync_items_deletion_by_filename_witness :
    (sync_items envC7b "test-actor".toList).1.success = true ∧
    (sync_items envC7b "test-actor".toList).1.items_deleted =
      (if pyStartswith "sb-".toList
          (pyRemoveAll ".md".toList (pyLastD (pySplitChar '/' "10-ideas/sb-zzz.md".toList)))
       then 1 else 0) ∧
    (sync_items envC7b "test-actor".toList).2.deletes =
      (if pyStartswith "sb-".toList
          (pyRemoveAll ".md".toList (pyLastD (pySplitChar '/' "10-ideas/sb-zzz.md".toList)))
       then [pyRemoveAll ".md".toList (pyLastD (pySplitChar '/' "10-ideas/sb-zzz.md".toList))]
       else []) ∧
    (sync_items envC7b "test-actor".toList).2.fileReads = 0 :=
  sync_items_deletion_by_filename envC7b "test-actor".toList "bbb".toList
    "aaa".toList "10-ideas/sb-zzz.md".toList rfl (by decide) (by decide)
    (by decide) rfl rfl (by decide) (by decide)

def envC10 : Env :=
  { head := some "bbb".toList, ssmValue := some "aaa".toList, diffOk := true,
    differences := [], folderFiles := fun _ => none, fileContent := fun _ => none,
    storeOk := fun _ => true, setMarkerOk := false, memoryList := none }

/-- C10: a successful sync_items result does not guarantee a moved
    watermark: set_sync_marker reports failure with false instead of
    raising and sync_items ignores that flag, so with a failing marker
    write the delta pass still returns success with new_commit_id = head
    while the stored watermark keeps its prior value. -/
theorem sync_success_without_watermark_advance
    (env : Env) (actor_id head w : PyStr)
    (hhead : env.head = some head)
    (hmarker : get_sync_marker env = some w)
    (hw : w ≠ []) (hne : w ≠ head)
    (hdiff : env.diffOk = true)
    (hdiffs : env.differences = [])
    (hset : env.setMarkerOk = false) :
    (sync_items env actor_id).1.success = true ∧
    (sync_items env actor_id).1.new_commit_id = some head ∧
    (sync_items env actor_id).2.markerWrites = [head] ∧
    (sync_items env actor_id).2.ssmAfter = env.ssmValue := by
  unfold sync_items
  rw [hhead]
  simp [hmarker, hw, hne, get_changed_files, hdiff, hdiffs, filterDifferences,
    processChanged, loopInit, set_sync_marker, hset]

/-- C10 witness: a concrete run that reports success while the stored
    watermark stays at its prior, different value. -/
theorem sync_success_without_watermark_advance_witness :
    (sync_items envC10 "test-actor".toList).1.success = true ∧
    (sync_items envC10 "test-actor".toList).1.new_commit_id = some "bbb".toList ∧
    (sync_items envC10 "test-actor".toList).2.markerWrites = ["bbb".toList] ∧
    (sync_items envC10 "test-actor".toList).2.ssmAfter = envC10.ssmValue :=
  sync_success_without_watermark_advance envC10 "test-actor".toList
    "bbb".toList "aaa".toList rfl (by decide) (by decide) (by decide) rfl rfl rfl

/-! ## String lemmas used by the round-trip proofs -/

theorem pySplitChar_ne_nil (sep : Char) (s : PyStr) : pySplitChar sep s ≠ [] := by
  cases s with
  | nil => simp [pySplitChar]
  | cons c rest =>
    simp only [pySplitChar]
    split
    · simp
    · split <;> simp

theorem pySplitChar_no_sep (sep : Char) (s : PyStr) (h : sep ∉ s) :
    pySplitChar sep s = [s] := by
  induction s with
  | nil => rfl
  | cons c rest ih =>
    simp only [List.mem_cons, not_or] at h
    have hne : ¬(c = sep) := fun hc => h.1 hc.symm
    simp only [pySplitChar, ih h.2]
    simp [hne]

theorem pySplitChar_append (sep : Char) (xs ys : PyStr) (h : sep ∉ xs) :
    pySplitChar sep (xs ++ sep :: ys) = xs :: pySplitChar sep ys := by
  induction xs with
  | nil =>
    simp only [List.nil_append, pySplitChar]
    rcases hs : pySplitChar sep ys with _ | ⟨hd, tl⟩
    · exact absurd hs (pySplitChar_ne_nil sep ys)
    · simp
  | cons c rest ih =>
    simp only [List.mem_cons, not_or] at h
    have hne : ¬(c = sep) := fun hc => h.1 hc.symm
    simp only [List.cons_append, pySplitChar, List.append_eq]
    rw [ih h.2]
    simp [hne]

theorem pyJoin_cons (sep x : PyStr) (ls : List PyStr) (h : ls ≠ []) :
    pyJoin sep (x :: ls) = x ++ sep ++ pyJoin sep ls := by
  cases ls with
  | nil => exact absurd rfl h
  | cons y t => rfl

theorem pyJoin_concat (sep l : PyStr) (ls : List PyStr) (h : ls ≠ []) :
    pyJoin sep (ls ++ [l]) = pyJoin sep ls ++ sep ++ l := by
  induction ls with
  | nil => exact absurd rfl h
  | cons x t ih =>
    cases t with
    | nil => simp [pyJoin]
    | cons y tt =>
      rw [List.cons_append, pyJoin_cons sep x ((y :: tt) ++ [l]) (by simp),
          ih (by simp), pyJoin_cons sep x (y :: tt) (by simp)]
      simp [List.append_assoc]

theorem pySplitChar_pyJoin (sep : Char) (ls : List PyStr) (hne : ls ≠ [])
    (h : ∀ l ∈ ls, sep ∉ l) :
    pySplitChar sep (pyJoin [sep] ls) = ls := by
  induction ls with
  | nil => exact absurd rfl hne
  | cons x t ih =>
    cases t with
    | nil => exact pySplitChar_no_sep sep x (h x (by simp))
    | cons y tt =>
      rw [pyJoin_cons [sep] x (y :: tt) (by simp)]
      have hx : x ++ [sep] ++ pyJoin [sep] (y :: tt) =
          x ++ sep :: pyJoin [sep] (y :: tt) := by simp
      rw [hx, pySplitChar_append sep x (pyJoin [sep] (y :: tt)) (h x (by simp)),
          ih (by simp) (fun l hl => h l (by simp [hl]))]

theorem mem_pyJoin (sep : PyStr) (ls : List PyStr) (c : Char)
    (h : c ∈ pyJoin sep ls) : c ∈ sep ∨ ∃ l ∈ ls, c ∈ l := by
  induction ls with
  | nil => simp [pyJoin] at h
  | cons x t ih =>
    cases t with
    | nil => exact Or.inr ⟨x, by simp, h⟩
    | cons y tt =>
      rw [pyJoin_cons sep x (y :: tt) (by simp)] at h
      simp only [List.append_assoc, List.mem_append] at h
      rcases h with hx | hs | hj
      · exact Or.inr ⟨x, by simp, hx⟩
      · exact Or.inl hs
      · rcases ih hj with hs | ⟨l, hl, hc⟩
        · exact Or.inl hs
        · exact Or.inr ⟨l, by simp [List.mem_cons] at hl ⊢; tauto, hc⟩

theorem dropWhile_cons_self (c : Char) (s : PyStr)
    (h : List.dropWhile pyIsSpace (c :: s) = c :: s) : pyIsSpace c = false := by
  by_cases hc : pyIsSpace c = true
  · exfalso
    rw [List.dropWhile_cons_of_pos hc] at h
    have hle := (List.dropWhile_sublist (l := s) pyIsSpace).length_le
    have hlen := congrArg List.length h
    simp at hlen
    omega
  · simpa using hc

theorem pyLstrip_cons_of_not_space (c : Char) (s : PyStr) (h : pyIsSpace c = false) :
    pyLstrip (c :: s) = c :: s := by
  have hc : ¬(pyIsSpace c = true) := by simp [h]
  simp [pyLstrip, List.dropWhile_cons_of_neg hc]

theorem pyRstrip_sublist (s : PyStr) : List.Sublist (pyRstrip s) s := by
  have h := (List.dropWhile_sublist (l := s.reverse) pyIsSpace).reverse
  simpa [pyRstrip] using h

theorem pyStrip_parts (s : PyStr) (h : pyStrip s = s) :
    pyLstrip s = s ∧ pyRstrip s = s := by
  have h1 : List.Sublist (pyStrip s) (pyLstrip s) := pyRstrip_sublist (pyLstrip s)
  have h2 : List.Sublist (pyLstrip s) s := List.dropWhile_sublist pyIsSpace
  have e1 := h1.length_le
  have e2 := h2.length_le
  rw [h] at e1
  have hlen : (pyLstrip s).length = s.length := le_antisymm e2 e1
  have hls : pyLstrip s = s := h2.eq_of_length hlen
  refine ⟨hls, ?_⟩
  have := h
  rw [pyStrip, hls] at this
  exact this

theorem pyRstrip_reverse_eq (s : PyStr) (h : pyRstrip s = s) :
    List.dropWhile pyIsSpace s.reverse = s.reverse := by
  have : (List.dropWhile pyIsSpace s.reverse).reverse = s := h
  calc List.dropWhile pyIsSpace s.reverse
      = ((List.dropWhile pyIsSpace s.reverse).reverse).reverse := by
        rw [List.reverse_reverse]
    _ = s.reverse := by rw [this]

theorem pyRstrip_append (xs ys : PyStr) (h : pyRstrip ys = ys) (hne : ys ≠ []) :
    pyRstrip (xs ++ ys) = xs ++ ys := by
  have hrev := pyRstrip_reverse_eq ys h
  rcases hyr : ys.reverse with _ | ⟨a, t⟩
  · exact absurd (by simpa using congrArg List.reverse hyr) hne
  · rw [hyr] at hrev
    have ha : pyIsSpace a = false := dropWhile_cons_self a t hrev
    unfold pyRstrip
    rw [List.reverse_append, hyr, List.cons_append,
        List.dropWhile_cons_of_neg (by simp [ha]), ← List.cons_append, ← hyr,
        ← List.reverse_append, List.reverse_reverse]

theorem pyRstrip_of_reverse_head (s : PyStr) (a : Char) (t : PyStr)
    (hrev : s.reverse = a :: t) (ha : pyIsSpace a = false) : pyRstrip s = s := by
  unfold pyRstrip
  rw [hrev, List.dropWhile_cons_of_neg (by simp [ha]), ← hrev, List.reverse_reverse]

theorem pyStrip_cons_space (s : PyStr) : pyStrip (' ' :: s) = pyStrip s := by
  have hsp : pyIsSpace ' ' = true := by decide
  simp [pyStrip, pyLstrip, List.dropWhile_cons_of_pos hsp]

/-! ## Evaluation lemmas for the memory-item line parser -/

theorem memStep_item (st : MemParseState) (x : PyStr) :
    memStep st ("Item: ".toList ++ x) = { st with title := some (pyStrip x) } := rfl

theorem memStep_id (st : MemParseState) (x : PyStr) :
    memStep st ("ID: ".toList ++ x) = { st with sb_id := some (pyStrip x) } := rfl

theorem memStep_type (st : MemParseState) (x : PyStr) :
    memStep st ("Type: ".toList ++ x) = { st with item_type := some (pyStrip x) } := rfl

theorem memStep_path (st : MemParseState) (x : PyStr) :
    memStep st ("Path: ".toList ++ x) = { st with path := some (pyStrip x) } := rfl

theorem memStep_tags (st : MemParseState) (x : PyStr) :
    memStep st ("Tags: ".toList ++ x) =
      { st with tags := ((pySplitChar ',' (pyStrip x)).map pyStrip).filter (fun t => !t.isEmpty) } := rfl

theorem memStep_status (st : MemParseState) (x : PyStr) :
    memStep st ("Status: ".toList ++ x) = { st with status := some (pyStrip x) } := rfl

/-! ## Character class lemmas -/

theorem pyIsSpace_cases (c : Char) (h : pyIsSpace c = true) :
    c = ' ' ∨ c = '\t' ∨ c = '\n' ∨ c = '\r' ∨ c = '\x0b' ∨ c = '\x0c' := by
  simp [pyIsSpace] at h
  tauto

theorem isLowerHex_not_space (c : Char) (h : isLowerHex c = true) :
    pyIsSpace c = false := by
  by_cases hs : pyIsSpace c = true
  · rcases pyIsSpace_cases c hs with h1 | h1 | h1 | h1 | h1 | h1 <;> subst h1 <;>
      exact absurd h (by decide)
  · simpa using hs

theorem isLowerHex_ne_newline (c : Char) (h : isLowerHex c = true) : c ≠ '\n' := by
  intro he
  subst he
  exact absurd h (by decide)

/-! ## Shape of a matching identifier -/

theorem sbIdCore_shape (s : PyStr) (h : sbIdCore s = true) :
    ∃ rest, s = 's' :: 'b' :: '-' :: rest ∧ rest.length = 7 ∧
      ∀ c ∈ rest, isLowerHex c = true := by
  unfold sbIdCore at h
  split at h
  · rename_i rest
    simp only [Bool.and_eq_true, beq_iff_eq, List.all_eq_true] at h
    exact ⟨rest, rfl, h.1, fun c hc => by simpa using h.2 c hc⟩
  · simp at h

theorem sbIdCore_no_newline (s : PyStr) (h : sbIdCore s = true) : '\n' ∉ s := by
  rcases sbIdCore_shape s h with ⟨rest, hs, hlen, hhex⟩
  subst hs
  intro hmem
  simp only [List.mem_cons] at hmem
  rcases hmem with h1 | h1 | h1 | h1
  · exact absurd h1.symm (by decide)
  · exact absurd h1.symm (by decide)
  · exact absurd h1.symm (by decide)
  · exact isLowerHex_ne_newline _ (hhex _ h1) rfl

theorem sbIdCore_strip (s : PyStr) (h : sbIdCore s = true) : pyStrip s = s := by
  rcases sbIdCore_shape s h with ⟨rest, hs, hlen, hhex⟩
  subst hs
  have hrne : rest ≠ [] := by
    intro hr
    rw [hr] at hlen
    simp at hlen
  rcases hrev : rest.reverse with _ | ⟨a, t⟩
  · exact absurd (by simpa using congrArg List.reverse hrev) hrne
  · have ha : a ∈ rest := by
      have : a ∈ rest.reverse := by rw [hrev]; simp
      simpa using this
    have hasp : pyIsSpace a = false := isLowerHex_not_space a (hhex a ha)
    have hsrev : ('s' :: 'b' :: '-' :: rest).reverse = a :: (t ++ ['-', 'b', 's']) := by
      simp [hrev]
    have hrs : pyRstrip ('s' :: 'b' :: '-' :: rest) = 's' :: 'b' :: '-' :: rest :=
      pyRstrip_of_reverse_head _ a (t ++ ['-', 'b', 's']) hsrev hasp
    have hls : pyLstrip ('s' :: 'b' :: '-' :: rest) = 's' :: 'b' :: '-' :: rest :=
      pyLstrip_cons_of_not_space 's' _ (by decide)
    rw [pyStrip, hls, hrs]

theorem sbIdCore_sbIdMatch (s : PyStr) (h : sbIdCore s = true) : sbIdMatch s = true := by
  simp [sbIdMatch, h]

/-! ## Round trip of the comma-joined tags line -/

theorem head_not_space_of_strip (t : PyStr) (hne : t ≠ []) (h : pyStrip t = t) :
    ∃ c rest, t = c :: rest ∧ pyIsSpace c = false := by
  rcases ht : t with _ | ⟨c, rest⟩
  · exact absurd ht hne
  · refine ⟨c, rest, rfl, ?_⟩
    have hl := (pyStrip_parts t h).1
    rw [ht] at hl
    exact dropWhile_cons_self c rest hl

theorem tags_roundtrip (tags : List PyStr)
    (h : ∀ t ∈ tags, t ≠ [] ∧ pyStrip t = t ∧ ',' ∉ t) (hne : tags ≠ []) :
    ((pySplitChar ',' (pyJoin ", ".toList tags)).map pyStrip).filter
      (fun t => !t.isEmpty) = tags := by
  induction tags with
  | nil => exact absurd rfl hne
  | cons t tt ih =>
    rcases h t (by simp) with ⟨ht_ne, ht_strip, ht_comma⟩
    cases tt with
    | nil =>
      simp only [pyJoin]
      rw [pySplitChar_no_sep ',' t ht_comma]
      simp [ht_strip, ht_ne]
    | cons y tt2 =>
      rw [pyJoin_cons ", ".toList t (y :: tt2) (by simp)]
      have hshape : t ++ ", ".toList ++ pyJoin ", ".toList (y :: tt2) =
          t ++ ',' :: (' ' :: pyJoin ", ".toList (y :: tt2)) := by simp
      rw [hshape, pySplitChar_append ',' t (' ' :: pyJoin ", ".toList (y :: tt2)) ht_comma]
      rcases hsp : pySplitChar ',' (pyJoin ", ".toList (y :: tt2)) with _ | ⟨hd, tl⟩
      · exact absurd hsp (pySplitChar_ne_nil ',' _)
      · have hcons : pySplitChar ',' (' ' :: pyJoin ", ".toList (y :: tt2)) =
            (' ' :: hd) :: tl := by
          simp only [pySplitChar]
          rw [hsp]
          simp
        rw [hcons]
        have ihh := ih (fun l hl => h l (by simp [hl])) (by simp)
        rw [hsp] at ihh
        have hkeep : List.isEmpty t = false := by
          cases t
          · exact absurd rfl ht_ne
          · rfl
        simp only [List.map_cons, List.filter_cons] at ihh ⊢
        rw [pyStrip_cons_space, ht_strip]
        simp [hkeep]
        simpa using ihh

/-! ## Line tests for the serialized form -/

theorem psTags_item (x : PyStr) :
    pyStartswith "Tags: ".toList ("Item: ".toList ++ x) = false := rfl
theorem psTags_id (x : PyStr) :
    pyStartswith "Tags: ".toList ("ID: ".toList ++ x) = false := rfl
theorem psTags_type (x : PyStr) :
    pyStartswith "Tags: ".toList ("Type: ".toList ++ x) = false := rfl
theorem psTags_path (x : PyStr) :
    pyStartswith "Tags: ".toList ("Path: ".toList ++ x) = false := rfl
theorem psTags_tags (x : PyStr) :
    pyStartswith "Tags: ".toList ("Tags: ".toList ++ x) = true := rfl
theorem psTags_status (x : PyStr) :
    pyStartswith "Tags: ".toList ("Status: ".toList ++ x) = false := rfl
theorem psStatus_item (x : PyStr) :
    pyStartswith "Status: ".toList ("Item: ".toList ++ x) = false := rfl
theorem psStatus_id (x : PyStr) :
    pyStartswith "Status: ".toList ("ID: ".toList ++ x) = false := rfl
theorem psStatus_type (x : PyStr) :
    pyStartswith "Status: ".toList ("Type: ".toList ++ x) = false := rfl
theorem psStatus_path (x : PyStr) :
    pyStartswith "Status: ".toList ("Path: ".toList ++ x) = false := rfl
theorem psStatus_tags (x : PyStr) :
    pyStartswith "Status: ".toList ("Tags: ".toList ++ x) = false := rfl
theorem psStatus_status (x : PyStr) :
    pyStartswith "Status: ".toList ("Status: ".toList ++ x) = true := rfl

theorem newline_not_mem_prefixed (pfx f : PyStr) (hpfx : '\n' ∉ pfx)
    (hf : '\n' ∉ f) : '\n' ∉ pfx ++ f := by
  simp only [List.mem_append]
  tauto

/-- Inversion of extract_item_metadata: a metadata record extracted for a
    non-project type carries no status. -/
theorem extract_nonproject_status (fp c : PyStr) (m : ItemMetadata)
    (h : extract_item_metadata fp c = .ok (some m))
    (hty : m.item_type ≠ .vstr "project".toList) : m.status = none := by
  rcases hpf : parse_front_matter c with _ | fm <;>
    simp only [extract_item_metadata, hpf] at h
  · simp at h
  · rcases hid : dictGet fm "id".toList with _ | (s | l) <;> rw [hid] at h
    · simp [pyOptTruthy] at h
    · rcases hti : dictGet fm "title".toList with _ | tv <;> rw [hti] at h
      · simp [pyOptTruthy] at h
      · rcases htp : dictGet fm "type".toList with _ | yv <;> rw [htp] at h
        · simp [pyOptTruthy] at h
        · repeat' split at h
          all_goals first
          | (exfalso; simp at h; done)
          | (simp only [Except.ok.injEq, Option.some.injEq] at h
             subst h
             simp_all)
    · repeat' split at h
      all_goals simp_all

/-! ## Claim C9 -/

def mC9 : ItemMetadata :=
  { sb_id := "sb-1234567".toList, title := .vstr "T".toList,
    item_type := .vstr "idea".toList, path := "10-ideas/x.md".toList,
    tags := [], status := some (.vstr "active".toList) }

/-- C9 counterexample: to_memory_text emits a Status line for any metadata
    value whose status is a non-empty string, regardless of its type; a
    directly constructed non-project value with a status gets a Status
    line, contradicting the claim's never-for-non-project-types clause. -/
theorem to_memory_text_status_counterexample :
    mC9.item_type ≠ PyVal.vstr "project".toList ∧
    (pySplitChar '\n' mC9.to_memory_text).any
      (fun l => pyStartswith "Status: ".toList l) = true := by
  decide

/-- C9 amended: for every metadata value whose rendered fields contain no
    newline, the serialized lines contain one line each for title, id, type
    and path; a line starting with Tags: exists iff tags is non-empty; a
    line starting with Status: exists iff status is set to a truthy value
    (so a value of None or an empty string yields no line); and the
    never-for-non-project guarantee holds for metadata produced by
    extract_item_metadata, whose status is None for non-project types. -/
theorem to_memory_text_line_structure
    (m : ItemMetadata)
    (h1 : '\n' ∉ pyStr m.title) (h2 : '\n' ∉ m.sb_id)
    (h3 : '\n' ∉ pyStr m.item_type) (h4 : '\n' ∉ m.path)
    (h5 : ∀ tg ∈ m.tags, '\n' ∉ tg)
    (h6 : ∀ v, m.status = some v → '\n' ∉ pyStr v) :
    (("Item: ".toList ++ pyStr m.title) ∈ pySplitChar '\n' m.to_memory_text) ∧
    (("ID: ".toList ++ m.sb_id) ∈ pySplitChar '\n' m.to_memory_text) ∧
    (("Type: ".toList ++ pyStr m.item_type) ∈ pySplitChar '\n' m.to_memory_text) ∧
    (("Path: ".toList ++ m.path) ∈ pySplitChar '\n' m.to_memory_text) ∧
    ((pySplitChar '\n' m.to_memory_text).any
      (fun l => pyStartswith "Tags: ".toList l) = !m.tags.isEmpty) ∧
    ((pySplitChar '\n' m.to_memory_text).any
      (fun l => pyStartswith "Status: ".toList l) = pyOptTruthy m.status) ∧
    (∀ fp c, extract_item_metadata fp c = .ok (some m) →
      m.item_type ≠ .vstr "project".toList →
      (pySplitChar '\n' m.to_memory_text).any
        (fun l => pyStartswith "Status: ".toList l) = false) := by
  have hsep : "\n".toList = ['\n'] := rfl
  have hnl_tags : '\n' ∉ pyJoin ", ".toList m.tags := by
    intro hmem
    rcases mem_pyJoin ", ".toList m.tags '\n' hmem with hs | ⟨l, hl, hc⟩
    · exact absurd hs (by decide)
    · exact h5 l hl hc
  rcases hstat : m.status with _ | v
  case none =>
    by_cases htag : m.tags.isEmpty
    all_goals {
      first
      | (have hL : m.to_memory_text =
            pyJoin "\n".toList
              ["Item: ".toList ++ pyStr m.title, "ID: ".toList ++ m.sb_id,
               "Type: ".toList ++ pyStr m.item_type, "Path: ".toList ++ m.path] := by
          simp only [ItemMetadata.to_memory_text, hstat, htag]
          simp)
      | (have hL : m.to_memory_text =
            pyJoin "\n".toList
              ["Item: ".toList ++ pyStr m.title, "ID: ".toList ++ m.sb_id,
               "Type: ".toList ++ pyStr m.item_type, "Path: ".toList ++ m.path,
               "Tags: ".toList ++ pyJoin ", ".toList m.tags] := by
          simp only [ItemMetadata.to_memory_text, hstat]
          simp [htag])
      rw [hL, hsep, pySplitChar_pyJoin '\n' _ (by simp) (by
        intro l hl
        simp only [List.mem_cons, List.not_mem_nil, or_false] at hl
        first
        | (rcases hl with rfl | rfl | rfl | rfl
           · exact newline_not_mem_prefixed _ _ (by decide) h1
           · exact newline_not_mem_prefixed _ _ (by decide) h2
           · exact newline_not_mem_prefixed _ _ (by decide) h3
           · exact newline_not_mem_prefixed _ _ (by decide) h4)
        | (rcases hl with rfl | rfl | rfl | rfl | rfl
           · exact newline_not_mem_prefixed _ _ (by decide) h1
           · exact newline_not_mem_prefixed _ _ (by decide) h2
           · exact newline_not_mem_prefixed _ _ (by decide) h3
           · exact newline_not_mem_prefixed _ _ (by decide) h4
           · exact newline_not_mem_prefixed _ _ (by decide) hnl_tags))]
      refine ⟨by simp, by simp, by simp, by simp, ?_, ?_, ?_⟩
      · simp only [List.any_cons, List.any_nil, psTags_item, psTags_id, psTags_type,
          psTags_path, psTags_tags, Bool.or_false, Bool.false_or, Bool.or_true, htag]
        simp [htag]
      · simp only [List.any_cons, List.any_nil, psStatus_item, psStatus_id,
          psStatus_type, psStatus_path, psStatus_tags, Bool.or_false, Bool.false_or]
        simp [pyOptTruthy]
      · intro fp c hex hnp
        simp only [List.any_cons, List.any_nil, psStatus_item, psStatus_id,
          psStatus_type, psStatus_path, psStatus_tags, Bool.or_false, Bool.false_or]
    }
  case some =>
    by_cases hv : pyValTruthy v
    case neg =>
      by_cases htag : m.tags.isEmpty
      all_goals {
        first
        | (have hL : m.to_memory_text =
              pyJoin "\n".toList
                ["Item: ".toList ++ pyStr m.title, "ID: ".toList ++ m.sb_id,
                 "Type: ".toList ++ pyStr m.item_type, "Path: ".toList ++ m.path] := by
            simp only [ItemMetadata.to_memory_text, hstat, htag]
            simp [hv])
        | (have hL : m.to_memory_text =
              pyJoin "\n".toList
                ["Item: ".toList ++ pyStr m.title, "ID: ".toList ++ m.sb_id,
                 "Type: ".toList ++ pyStr m.item_type, "Path: ".toList ++ m.path,
                 "Tags: ".toList ++ pyJoin ", ".toList m.tags] := by
            simp only [ItemMetadata.to_memory_text, hstat]
            simp [htag, hv])
        rw [hL, hsep, pySplitChar_pyJoin '\n' _ (by simp) (by
          intro l hl
          simp only [List.mem_cons, List.not_mem_nil, or_false] at hl
          first
          | (rcases hl with rfl | rfl | rfl | rfl
             · exact newline_not_mem_prefixed _ _ (by decide) h1
             · exact newline_not_mem_prefixed _ _ (by decide) h2
             · exact newline_not_mem_prefixed _ _ (by decide) h3
             · exact newline_not_mem_prefixed _ _ (by decide) h4)
          | (rcases hl with rfl | rfl | rfl | rfl | rfl
             · exact newline_not_mem_prefixed _ _ (by decide) h1
             · exact newline_not_mem_prefixed _ _ (by decide) h2
             · exact newline_not_mem_prefixed _ _ (by decide) h3
             · exact newline_not_mem_prefixed _ _ (by decide) h4
             · exact newline_not_mem_prefixed _ _ (by decide) hnl_tags))]
        refine ⟨by simp, by simp, by simp, by simp, ?_, ?_, ?_⟩
        · simp only [List.any_cons, List.any_nil, psTags_item, psTags_id, psTags_type,
            psTags_path, psTags_tags, Bool.or_false, Bool.false_or, Bool.or_true]
          simp [htag]
        · simp only [List.any_cons, List.any_nil, psStatus_item, psStatus_id,
            psStatus_type, psStatus_path, psStatus_tags, Bool.or_false, Bool.false_or]
          simp only [pyOptTruthy]
          simp at hv
          simp [hv]
        · intro fp c hex hnp
          simp only [List.any_cons, List.any_nil, psStatus_item, psStatus_id,
            psStatus_type, psStatus_path, psStatus_tags, Bool.or_false, Bool.false_or]
      }
    case pos =>
      have hnl_st : '\n' ∉ pyStr v := h6 v hstat
      by_cases htag : m.tags.isEmpty
      all_goals {
        first
        | (have hL : m.to_memory_text =
              pyJoin "\n".toList
                ["Item: ".toList ++ pyStr m.title, "ID: ".toList ++ m.sb_id,
                 "Type: ".toList ++ pyStr m.item_type, "Path: ".toList ++ m.path,
                 "Status: ".toList ++ pyStr v] := by
            simp only [ItemMetadata.to_memory_text, hstat, htag, hv]
            simp)
        | (have hL : m.to_memory_text =
              pyJoin "\n".toList
                ["Item: ".toList ++ pyStr m.title, "ID: ".toList ++ m.sb_id,
                 "Type: ".toList ++ pyStr m.item_type, "Path: ".toList ++ m.path,
                 "Tags: ".toList ++ pyJoin ", ".toList m.tags,
                 "Status: ".toList ++ pyStr v] := by
            simp only [ItemMetadata.to_memory_text, hstat, hv]
            simp [htag])
        rw [hL, hsep, pySplitChar_pyJoin '\n' _ (by simp) (by
          intro l hl
          simp only [List.mem_cons, List.not_mem_nil, or_false] at hl
          first
          | (rcases hl with rfl | rfl | rfl | rfl | rfl
             · exact newline_not_mem_prefixed _ _ (by decide) h1
             · exact newline_not_mem_prefixed _ _ (by decide) h2
             · exact newline_not_mem_prefixed _ _ (by decide) h3
             · exact newline_not_mem_prefixed _ _ (by decide) h4
             · exact newline_not_mem_prefixed _ _ (by decide) hnl_st)
          | (rcases hl with rfl | rfl | rfl | rfl | rfl | rfl
             · exact newline_not_mem_prefixed _ _ (by decide) h1
             · exact newline_not_mem_prefixed _ _ (by decide) h2
             · exact newline_not_mem_prefixed _ _ (by decide) h3
             · exact newline_not_mem_prefixed _ _ (by decide) h4
             · exact newline_not_mem_prefixed _ _ (by decide) hnl_tags
             · exact newline_not_mem_prefixed _ _ (by decide) hnl_st))]
        refine ⟨by simp, by simp, by simp, by simp, ?_, ?_, ?_⟩
        · simp only [List.any_cons, List.any_nil, psTags_item, psTags_id, psTags_type,
            psTags_path, psTags_tags, psTags_status, Bool.or_false, Bool.false_or,
            Bool.or_true]
          simp [htag]
        · simp only [List.any_cons, List.any_nil, psStatus_item, psStatus_id,
            psStatus_type, psStatus_path, psStatus_tags, psStatus_status,
            Bool.or_false, Bool.false_or, Bool.or_true]
          simp [pyOptTruthy, hv]
        · intro fp c hex hnp
          have hst := extract_nonproject_status fp c m hex hnp
          rw [hstat] at hst
          cases hst
      }

def mC9w : ItemMetadata :=
  { sb_id := "sb-1234567".toList, title := .vstr "T".toList,
    item_type := .vstr "idea".toList, path := "10-ideas/x.md".toList,
    tags := ["home".toList], status := none }

/-- C9 witness for the amended claim, at a concrete metadata value. -/
theorem to_memory_text_line_structure_witness :
    (("Item: ".toList ++ pyStr mC9w.title) ∈ pySplitChar '\n' mC9w.to_memory_text) ∧
    (("ID: ".toList ++ mC9w.sb_id) ∈ pySplitChar '\n' mC9w.to_memory_text) ∧
    (("Type: ".toList ++ pyStr mC9w.item_type) ∈ pySplitChar '\n' mC9w.to_memory_text) ∧
    (("Path: ".toList ++ mC9w.path) ∈ pySplitChar '\n' mC9w.to_memory_text) ∧
    ((pySplitChar '\n' mC9w.to_memory_text).any
      (fun l => pyStartswith "Tags: ".toList l) = !mC9w.tags.isEmpty) ∧
    ((pySplitChar '\n' mC9w.to_memory_text).any
      (fun l => pyStartswith "Status: ".toList l) = pyOptTruthy mC9w.status) := by
  have h := to_memory_text_line_structure mC9w (by decide) (by decide) (by decide)
    (by decide) (by decide) (by intro v hv; exact absurd hv (by simp [mC9w]))
  exact ⟨h.1, h.2.1, h.2.2.1, h.2.2.2.1, h.2.2.2.2.1, h.2.2.2.2.2.1⟩

/-! ## Claim C6 -/

/-- Inversion: extract_item_metadata raises only when the parsed front
    matter binds id to a non-empty YAML list. -/
theorem extract_error_inversion (fp c : PyStr) (e : PyErr)
    (h : extract_item_metadata fp c = .error e) :
    ∃ fm l, parse_front_matter c = some fm ∧
      dictGet fm "id".toList = some (.vlist l) ∧ l ≠ [] := by
  rcases hpf : parse_front_matter c with _ | fm <;>
    simp only [extract_item_metadata, hpf] at h
  · simp at h
  · rcases hid : dictGet fm "id".toList with _ | (s | l) <;> rw [hid] at h
    · simp [pyOptTruthy] at h
    · rcases hti : dictGet fm "title".toList with _ | tv <;> rw [hti] at h
      · simp [pyOptTruthy] at h
      · rcases htp : dictGet fm "type".toList with _ | yv <;> rw [htp] at h
        · simp [pyOptTruthy] at h
        · repeat' split at h
          all_goals simp_all
    · refine ⟨fm, l, rfl, hid, ?_⟩
      intro hl
      subst hl
      simp [pyOptTruthy, pyValTruthy] at h

theorem not_and3_eq_true (a b c : Bool) (h : a = false ∨ b = false ∨ c = false) :
    (!(a && b && c)) = true := by
  rcases h with h | h | h <;> subst h <;> simp

def c6content : PyStr :=
  "---\nid:\n  - sb-1234567\ntitle: t\ntype: idea\n---\nbody\n".toList

/-- C6 counterexample: a syntactically well-formed header whose id field is
    a YAML list makes extract_item_metadata raise a TypeError (re.match on
    a list) instead of returning metadata or None, contradicting the claim
    that it never raises. -/
theorem extract_item_metadata_raises_counterexample :
    extract_item_metadata "10-ideas/x.md".toList c6content = .error .typeError := by
  decide

/-- C6 amended: extract_item_metadata returns a value (metadata or None)
    for every input except when the parsed front matter binds id to a
    non-empty YAML list, in which case re.match raises TypeError; it
    returns None whenever the header block is absent, whenever id, title or
    type is missing or falsy, and whenever a string id fails the
    identifier pattern. -/
theorem extract_item_metadata_total (file_path content : PyStr) :
    ((∃ r, extract_item_metadata file_path content = .ok r) ∨
      (∃ fm l, parse_front_matter content = some fm ∧
        dictGet fm "id".toList = some (.vlist l) ∧ l ≠ [])) ∧
    (parse_front_matter content = none →
      extract_item_metadata file_path content = .ok none) ∧
    (∀ fm, parse_front_matter content = some fm →
      (pyOptTruthy (dictGet fm "id".toList) = false ∨
       pyOptTruthy (dictGet fm "title".toList) = false ∨
       pyOptTruthy (dictGet fm "type".toList) = false) →
      extract_item_metadata file_path content = .ok none) ∧
    (∀ fm s, parse_front_matter content = some fm →
      dictGet fm "id".toList = some (.vstr s) → sbIdMatch s = false →
      extract_item_metadata file_path content = .ok none) := by
  refine ⟨?_, ?_, ?_, ?_⟩
  · rcases hex : extract_item_metadata file_path content with e | r
    · exact Or.inr (extract_error_inversion file_path content e hex)
    · exact Or.inl ⟨r, rfl⟩
  · intro hpf
    simp [extract_item_metadata, hpf]
  · intro fm hpf hdisj
    simp only [extract_item_metadata, hpf]
    by_cases hemp : List.isEmpty fm = true
    · rw [if_pos hemp]
    · rw [if_neg hemp]
      exact if_pos (not_and3_eq_true _ _ _ hdisj)
  · intro fm s hpf hid hsb
    simp only [extract_item_metadata, hpf]
    by_cases hemp : List.isEmpty fm = true
    · rw [if_pos hemp]
    · rw [if_neg hemp]
      by_cases htr : (!(pyOptTruthy (dictGet fm "id".toList) &&
          pyOptTruthy (dictGet fm "title".toList) &&
          pyOptTruthy (dictGet fm "type".toList))) = true
      · rw [if_pos htr]
      · rw [if_neg htr]
        rcases hti : dictGet fm "title".toList with _ | tv
        · rw [hti] at htr
          simp [pyOptTruthy] at htr
        · rcases htp : dictGet fm "type".toList with _ | yv
          · rw [htp] at htr
            simp [pyOptTruthy] at htr
          · rw [hid]
            exact if_pos (show (!sbIdMatch s) = true by rw [hsb]; rfl)

def c6wContent : PyStr := "not an item".toList

/-- C6 witness for the amended claim: a document without a header block
    yields None. -/
theorem extract_item_metadata_total_witness :
    extract_item_metadata "10-ideas/x.md".toList c6wContent = .ok none :=
  (extract_item_metadata_total "10-ideas/x.md".toList c6wContent).2.1 (by decide)

/-! ## Claim C8 -/

def c8content : PyStr :=
  "---\nid:\n  - sb-7654321\ntitle: t\ntype: idea\n---\nbody\n".toList

/-- C8 counterexample: a sync_single_item call on a header with a
    list-valued id returns the raw Python exception text str(e) in the
    error field, contradicting the claim that the error never contains raw
    exception text. -/
theorem sync_single_item_raw_error_counterexample :
    (sync_single_item true "test-actor".toList "10-ideas/x.md".toList
      c8content).error = some (pyErrText .typeError) ∧
    pyErrText .typeError = "expected string or bytes-like object".toList := by
  decide

/-- C8 amended: every error produced by sync_single_item is either absent,
    one of the two fixed phase messages (which may embed the document path
    or the item id), or the raw str(e) of an exception that reached the
    top-level handler; every error produced by sync_items is either absent,
    the fixed head-lookup message, or such a raw exception text. -/
theorem sync_error_messages_characterized :
    (∀ (store_ok : Bool) (actor_id file_path content : PyStr),
      (sync_single_item store_ok actor_id file_path content).error = none ∨
      (sync_single_item store_ok actor_id file_path content).error =
        some ("Failed to extract metadata from ".toList ++ file_path) ∨
      (∃ m, extract_item_metadata file_path content = .ok (some m) ∧
        (sync_single_item store_ok actor_id file_path content).error =
          some ("Failed to store item ".toList ++ m.sb_id ++ " in Memory".toList)) ∨
      (∃ e, (sync_single_item store_ok actor_id file_path content).error =
        some (pyErrText e))) ∧
    (∀ (env : Env) (actor_id : PyStr),
      (sync_items env actor_id).1.error = none ∨
      (sync_items env actor_id).1.error =
        some "Failed to get CodeCommit HEAD commit".toList ∨
      (∃ e, (sync_items env actor_id).1.error = some (pyErrText e))) := by
  constructor
  · intro store_ok actor_id file_path content
    unfold sync_single_item
    rcases hex : extract_item_metadata file_path content with e | r
    · exact Or.inr (Or.inr (Or.inr ⟨e, rfl⟩))
    · rcases r with _ | m
      · exact Or.inr (Or.inl rfl)
      · cases store_ok
        · exact Or.inr (Or.inr (Or.inl ⟨m, rfl, rfl⟩))
        · exact Or.inl rfl
  · intro env actor_id
    unfold sync_items
    rcases hh : env.head with _ | head
    · exact Or.inr (Or.inl rfl)
    · dsimp only
      split
      · split
        · exact Or.inr (Or.inr ⟨_, rfl⟩)
        · exact Or.inl rfl
      · split
        · exact Or.inl rfl
        · split
          · exact Or.inr (Or.inr ⟨_, rfl⟩)
          · exact Or.inl rfl

/-! ## Claim C4 -/

theorem mem_take_or_length_eq {α : Type} (l : List α) (n : Nat) (x : α)
    (hx : x ∈ l) : x ∈ l.take n ∨ (l.take n).length = n := by
  by_cases h : l.length ≤ n
  · rw [List.take_of_length_le h]
    exact Or.inl hx
  · right
    rw [List.length_take]
    omega

/-- C4: the health comparison reports the true counts of both enumerations,
    displays each difference list truncated to at most 10 identifiers drawn
    from the exact set difference (an identifier of the true difference is
    either displayed or the displayed list is full), and in_sync is true
    iff the two identifier sets are equal — equal counts over disjoint
    identifier sets therefore yield in_sync = false. -/
theorem health_from_correct (A B : List ItemMetadata) (head : Option PyStr) :
    (health_from A B head).codecommit_count = A.length ∧
    (health_from A B head).memory_count = B.length ∧
    (health_from A B head).missing_in_memory.length ≤ 10 ∧
    (health_from A B head).extra_in_memory.length ≤ 10 ∧
    (∀ x, x ∈ (health_from A B head).missing_in_memory →
      x ∈ A.map ItemMetadata.sb_id ∧ x ∉ B.map ItemMetadata.sb_id) ∧
    (∀ x, x ∈ A.map ItemMetadata.sb_id → x ∉ B.map ItemMetadata.sb_id →
      (x ∈ (health_from A B head).missing_in_memory ∨
       (health_from A B head).missing_in_memory.length = 10)) ∧
    (∀ x, x ∈ (health_from A B head).extra_in_memory →
      x ∈ B.map ItemMetadata.sb_id ∧ x ∉ A.map ItemMetadata.sb_id) ∧
    (∀ x, x ∈ B.map ItemMetadata.sb_id → x ∉ A.map ItemMetadata.sb_id →
      (x ∈ (health_from A B head).extra_in_memory ∨
       (health_from A B head).extra_in_memory.length = 10)) ∧
    ((health_from A B head).in_sync = true ↔
      ∀ x, x ∈ A.map ItemMetadata.sb_id ↔ x ∈ B.map ItemMetadata.sb_id) := by
  have hmiss : (health_from A B head).missing_in_memory =
      (((A.map ItemMetadata.sb_id).dedup).filter
        (fun x => !(B.map ItemMetadata.sb_id).dedup.contains x)).take 10 := rfl
  have hextra : (health_from A B head).extra_in_memory =
      (((B.map ItemMetadata.sb_id).dedup).filter
        (fun x => !(A.map ItemMetadata.sb_id).dedup.contains x)).take 10 := rfl
  have hsync : (health_from A B head).in_sync =
      ((health_from A B head).missing_in_memory.length == 0 &&
       (health_from A B head).extra_in_memory.length == 0) := rfl
  refine ⟨rfl, rfl, ?_, ?_, ?_, ?_, ?_, ?_, ?_⟩
  · rw [hmiss]
    exact List.length_take_le 10 _
  · rw [hextra]
    exact List.length_take_le 10 _
  · intro x hx
    rw [hmiss] at hx
    have hx2 := List.take_subset 10 _ hx
    simp only [List.mem_filter, List.mem_dedup, Bool.not_eq_true'] at hx2
    refine ⟨hx2.1, ?_⟩
    intro hb
    have : ((B.map ItemMetadata.sb_id).dedup.contains x) = true := by
      simp [List.mem_dedup, hb]
    rw [this] at hx2
    exact absurd hx2.2 (by simp)
  · intro x hxa hxb
    rw [hmiss]
    apply mem_take_or_length_eq
    simp only [List.mem_filter, List.mem_dedup, Bool.not_eq_true']
    refine ⟨hxa, ?_⟩
    simp [List.mem_dedup, hxb]
  · intro x hx
    rw [hextra] at hx
    have hx2 := List.take_subset 10 _ hx
    simp only [List.mem_filter, List.mem_dedup, Bool.not_eq_true'] at hx2
    refine ⟨hx2.1, ?_⟩
    intro ha
    have : ((A.map ItemMetadata.sb_id).dedup.contains x) = true := by
      simp [List.mem_dedup, ha]
    rw [this] at hx2
    exact absurd hx2.2 (by simp)
  · intro x hxb hxa
    rw [hextra]
    apply mem_take_or_length_eq
    simp only [List.mem_filter, List.mem_dedup, Bool.not_eq_true']
    refine ⟨hxb, ?_⟩
    simp [List.mem_dedup, hxa]
  · rw [hsync, hmiss, hextra]
    constructor
    · intro h x
      simp only [Bool.and_eq_true, beq_iff_eq, List.length_eq_zero] at h
      obtain ⟨h1, h2⟩ := h
      rw [List.take_eq_nil_iff] at h1 h2
      rcases h1 with h1 | h1
      · omega
      rcases h2 with h2 | h2
      · omega
      rw [List.filter_eq_nil_iff] at h1 h2
      constructor
      · intro hxa
        have := h1 x (by simp [List.mem_dedup, hxa])
        simpa [List.mem_dedup] using this
      · intro hxb
        have := h2 x (by simp [List.mem_dedup, hxb])
        simpa [List.mem_dedup] using this
    · intro h
      simp only [Bool.and_eq_true, beq_iff_eq, List.length_eq_zero]
      constructor
      · rw [List.take_eq_nil_iff]
        right
        rw [List.filter_eq_nil_iff]
        intro x hx
        simp only [List.mem_dedup] at hx
        simp [List.mem_dedup, (h x).1 hx]
      · rw [List.take_eq_nil_iff]
        right
        rw [List.filter_eq_nil_iff]
        intro x hx
        simp only [List.mem_dedup] at hx
        simp [List.mem_dedup, (h x).2 hx]

def mA1 : ItemMetadata :=
  { sb_id := "sb-aaaaaaa".toList, title := .vstr "A".toList,
    item_type := .vstr "idea".toList, path := "10-ideas/a.md".toList,
    tags := [], status := none }

def mB1 : ItemMetadata :=
  { sb_id := "sb-bbbbbbb".toList, title := .vstr "B".toList,
    item_type := .vstr "idea".toList, path := "10-ideas/b.md".toList,
    tags := [], status := none }

/-- C4 witness: two singleton stores with equal counts but disjoint
    identifiers are reported as not in sync. -/
theorem health_from_correct_witness :
    (health_from [mA1] [mB1] none).codecommit_count =
      (health_from [mA1] [mB1] none).memory_count ∧
    (health_from [mA1] [mB1] none).in_sync = false := by
  have h := health_from_correct [mA1] [mB1] none
  refine ⟨by rw [h.1, h.2.1]; rfl, ?_⟩
  have hiff := h.2.2.2.2.2.2.2.2
  by_cases hs : (health_from [mA1] [mB1] none).in_sync = true
  · exfalso
    have := (hiff.mp hs "sb-aaaaaaa".toList).mp (by decide)
    revert this
    decide
  · simpa using hs

/-! ## Strip-invariance of joined lines -/

theorem pyStrip_pyJoin_tags (tags : List PyStr) (hne : tags ≠ [])
    (h : ∀ t ∈ tags, t ≠ [] ∧ pyStrip t = t) :
    pyStrip (pyJoin ", ".toList tags) = pyJoin ", ".toList tags := by
  rcases tags with _ | ⟨t0, rest⟩
  · exact absurd rfl hne
  obtain ⟨c0, z0, ht0, hc0⟩ :=
    head_not_space_of_strip t0 (h t0 (by simp)).1 (h t0 (by simp)).2
  cases rest with
  | nil => simpa [pyJoin] using (h t0 (by simp)).2
  | cons t1 rest2 =>
    have hlne : (t0 :: t1 :: rest2) ≠ [] := by simp
    have hdecomp := List.dropLast_append_getLast hlne
    have hjoin : pyJoin ", ".toList (t0 :: t1 :: rest2) =
        pyJoin ", ".toList ((t0 :: t1 :: rest2).dropLast) ++ ", ".toList ++
          (t0 :: t1 :: rest2).getLast hlne := by
      conv_lhs => rw [← hdecomp]
      exact pyJoin_concat ", ".toList _ _ (by simp)
    have hjc : pyJoin ", ".toList (t0 :: t1 :: rest2) =
        c0 :: (z0 ++ ", ".toList ++ pyJoin ", ".toList (t1 :: rest2)) := by
      rw [pyJoin_cons ", ".toList t0 (t1 :: rest2) (by simp), ht0]
      simp
    have htl := h ((t0 :: t1 :: rest2).getLast hlne) (List.getLast_mem hlne)
    rw [pyStrip, hjc, pyLstrip_cons_of_not_space _ _ hc0, ← hjc, hjoin,
      pyRstrip_append _ _ (pyStrip_parts _ htl.2).2 htl.1, ← hjoin]

theorem pyStrip_join_fixed (l0 : PyStr) (mid : List PyStr) (ln : PyStr)
    (c0 : Char) (z0 : PyStr) (h0 : l0 = c0 :: z0) (hc0 : pyIsSpace c0 = false)
    (hln : pyRstrip ln = ln) (hlnne : ln ≠ []) :
    pyStrip (pyJoin "\n".toList (l0 :: (mid ++ [ln]))) =
      pyJoin "\n".toList (l0 :: (mid ++ [ln])) := by
  have hform : pyJoin "\n".toList (l0 :: (mid ++ [ln])) =
      pyJoin "\n".toList (l0 :: mid) ++ "\n".toList ++ ln := by
    have h2 := pyJoin_concat "\n".toList ln (l0 :: mid) (by simp)
    simpa using h2
  have hcons : pyJoin "\n".toList (l0 :: (mid ++ [ln])) =
      c0 :: (z0 ++ "\n".toList ++ pyJoin "\n".toList (mid ++ [ln])) := by
    rw [pyJoin_cons "\n".toList l0 (mid ++ [ln]) (by simp), h0]
    simp
  rw [pyStrip, hcons, pyLstrip_cons_of_not_space _ _ hc0, ← hcons, hform,
    pyRstrip_append _ _ hln hlnne, ← hform]

/-! ## Claim C5 -/

def c5content : PyStr :=
  "---\nid: sb-1234567\ntitle: T\ntype: idea\ntags:\n  - \"a,b\"\n---\nbody\n".toList

def mC5 : ItemMetadata :=
  { sb_id := "sb-1234567".toList, title := .vstr "T".toList,
    item_type := .vstr "idea".toList, path := "10-ideas/x.md".toList,
    tags := ["a,b".toList], status := none }

/-- C5 counterexample: a valid header whose tags contain a comma extracts
    to metadata with the single tag a,b, but parsing the serialized index
    text back splits on the comma and yields the two tags a and b, so the
    round trip is not lossless on tags. -/
theorem metadata_roundtrip_counterexample :
    extract_item_metadata "10-ideas/x.md".toList c5content = .ok (some mC5) ∧
    parse_memory_item mC5.to_memory_text =
      some { mC5 with tags := ["a".toList, "b".toList] } ∧
    ["a".toList, "b".toList] ≠ mC5.tags := by
  decide

/-- C5 amended: the round trip through the index text reproduces id, type,
    tags and status provided the fields are line-safe: the title strips to
    a non-empty string, the id matches the identifier pattern, type and
    path are non-empty, stripped and newline-free, every tag is non-empty,
    stripped, comma-free and newline-free, the status (when set) is a
    non-empty, stripped, newline-free string, and the rendered text does
    not contain the watermark marker phrase.  The counterexample shows the
    comma-free condition is necessary; whitespace-trimming and the marker
    phrase are necessary for the same reason (the reverse parser strips
    each field and skips marker records). -/
theorem metadata_roundtrip
    (m : ItemMetadata) (t ty : PyStr)
    (ht : m.title = .vstr t) (ht_nl : '\n' ∉ t) (ht_ne : pyStrip t ≠ [])
    (hid : sbIdCore m.sb_id = true)
    (hty : m.item_type = .vstr ty) (hty_nl : '\n' ∉ ty)
    (hty_strip : pyStrip ty = ty) (hty_ne : ty ≠ [])
    (hp_nl : '\n' ∉ m.path) (hp_strip : pyStrip m.path = m.path) (hp_ne : m.path ≠ [])
    (htags : ∀ tg ∈ m.tags, tg ≠ [] ∧ pyStrip tg = tg ∧ ',' ∉ tg ∧ '\n' ∉ tg)
    (hstat : m.status = none ∨ ∃ sv, m.status = some (.vstr sv) ∧ sv ≠ [] ∧
      pyStrip sv = sv ∧ '\n' ∉ sv)
    (hmarker : pyIn "Last synced commit:".toList m.to_memory_text = false) :
    ∃ m', parse_memory_item m.to_memory_text = some m' ∧
      m'.sb_id = m.sb_id ∧ m'.item_type = m.item_type ∧
      m'.tags = m.tags ∧ m'.status = m.status := by
  have hsep : "\n".toList = ['\n'] := rfl
  have hid_strip := sbIdCore_strip m.sb_id hid
  have hid_nl := sbIdCore_no_newline m.sb_id hid
  have hid_match := sbIdCore_sbIdMatch m.sb_id hid
  have hid_ne : m.sb_id ≠ [] := by
    obtain ⟨r, hr, _, _⟩ := sbIdCore_shape m.sb_id hid
    rw [hr]
    simp
  rcases hstat with hstat0 | ⟨sv, hsv, hsv_ne, hsv_strip, hsv_nl⟩
  · by_cases htag0 : m.tags.isEmpty
    · -- no tags, no status
      have htag : m.tags = [] := by simpa using htag0
      have hL : m.to_memory_text =
          pyJoin "\n".toList
            ["Item: ".toList ++ t, "ID: ".toList ++ m.sb_id,
             "Type: ".toList ++ ty, "Path: ".toList ++ m.path] := by
        simp only [ItemMetadata.to_memory_text, ht, hty, hstat0, htag, pyStr]
        simp
      have hstrip : pyStrip m.to_memory_text = m.to_memory_text := by
        rw [hL]
        exact pyStrip_join_fixed ("Item: ".toList ++ t)
          ["ID: ".toList ++ m.sb_id, "Type: ".toList ++ ty]
          ("Path: ".toList ++ m.path) 'I' ("tem: ".toList ++ t) rfl (by decide)
          (pyRstrip_append "Path: ".toList m.path (pyStrip_parts _ hp_strip).2 hp_ne)
          (by simp)
      have hsplit : pySplitChar '\n' (pyStrip m.to_memory_text) =
          ["Item: ".toList ++ t, "ID: ".toList ++ m.sb_id,
           "Type: ".toList ++ ty, "Path: ".toList ++ m.path] := by
        rw [hstrip, hL, hsep]
        refine pySplitChar_pyJoin '\n' _ (by simp) ?_
        intro l hl
        simp only [List.mem_cons, List.not_mem_nil, or_false] at hl
        rcases hl with rfl | rfl | rfl | rfl
        · exact newline_not_mem_prefixed _ _ (by decide) ht_nl
        · exact newline_not_mem_prefixed _ _ (by decide) hid_nl
        · exact newline_not_mem_prefixed _ _ (by decide) hty_nl
        · exact newline_not_mem_prefixed _ _ (by decide) hp_nl
      have hfold : List.foldl memStep memParseInit
          ["Item: ".toList ++ t, "ID: ".toList ++ m.sb_id,
           "Type: ".toList ++ ty, "Path: ".toList ++ m.path] =
          { title := some (pyStrip t), sb_id := some (pyStrip m.sb_id),
            item_type := some (pyStrip ty), path := some (pyStrip m.path),
            tags := [], status := none } := rfl
      have hparse : parse_memory_item m.to_memory_text = some
          { sb_id := m.sb_id, title := .vstr (pyStrip t), item_type := .vstr ty,
            path := m.path, tags := [], status := none } := by
        simp only [parse_memory_item, hmarker, Bool.false_eq_true, if_false]
        rw [hsplit, hfold]
        dsimp only
        rw [if_neg (by
          simp [pyOptStrTruthy, hid_strip, hp_strip, hty_strip, ht_ne, hid_ne,
            hty_ne, hp_ne])]
        rw [hid_strip]
        rw [if_neg (by simp [hid_match])]
        rw [hty_strip, hp_strip]
        rfl
      exact ⟨_, hparse, rfl, by rw [hty], by rw [htag], by rw [hstat0]⟩
    · -- tags, no status
      have htagne : m.tags ≠ [] := by
        intro h0
        rw [h0] at htag0
        exact htag0 rfl
      have hjoin_strip : pyStrip (pyJoin ", ".toList m.tags) =
          pyJoin ", ".toList m.tags :=
        pyStrip_pyJoin_tags m.tags htagne
          (fun tg htg => ⟨(htags tg htg).1, (htags tg htg).2.1⟩)
      have hjoin_nl : '\n' ∉ pyJoin ", ".toList m.tags := by
        intro hmem
        rcases mem_pyJoin ", ".toList m.tags '\n' hmem with hs | ⟨l, hl, hc⟩
        · exact absurd hs (by decide)
        · exact (htags l hl).2.2.2 hc
      have hjoin_ne : pyJoin ", ".toList m.tags ≠ [] := by
        rcases hmt : m.tags with _ | ⟨t0, rest⟩
        · exact absurd hmt htagne
        · have ht0 := (htags t0 (by rw [hmt]; simp)).1
          cases rest
          · simpa [pyJoin] using ht0
          · rw [pyJoin_cons ", ".toList t0 _ (by simp)]
            simp [ht0]
      have hL : m.to_memory_text =
          pyJoin "\n".toList
            ["Item: ".toList ++ t, "ID: ".toList ++ m.sb_id,
             "Type: ".toList ++ ty, "Path: ".toList ++ m.path,
             "Tags: ".toList ++ pyJoin ", ".toList m.tags] := by
        simp only [ItemMetadata.to_memory_text, ht, hty, hstat0, pyStr]
        simp [htag0]
      have hstrip : pyStrip m.to_memory_text = m.to_memory_text := by
        rw [hL]
        exact pyStrip_join_fixed ("Item: ".toList ++ t)
          ["ID: ".toList ++ m.sb_id, "Type: ".toList ++ ty, "Path: ".toList ++ m.path]
          ("Tags: ".toList ++ pyJoin ", ".toList m.tags) 'I' ("tem: ".toList ++ t)
          rfl (by decide)
          (pyRstrip_append "Tags: ".toList _ (pyStrip_parts _ hjoin_strip).2 hjoin_ne)
          (by simp)
      have hsplit : pySplitChar '\n' (pyStrip m.to_memory_text) =
          ["Item: ".toList ++ t, "ID: ".toList ++ m.sb_id,
           "Type: ".toList ++ ty, "Path: ".toList ++ m.path,
           "Tags: ".toList ++ pyJoin ", ".toList m.tags] := by
        rw [hstrip, hL, hsep]
        refine pySplitChar_pyJoin '\n' _ (by simp) ?_
        intro l hl
        simp only [List.mem_cons, List.not_mem_nil, or_false] at hl
        rcases hl with rfl | rfl | rfl | rfl | rfl
        · exact newline_not_mem_prefixed _ _ (by decide) ht_nl
        · exact newline_not_mem_prefixed _ _ (by decide) hid_nl
        · exact newline_not_mem_prefixed _ _ (by decide) hty_nl
        · exact newline_not_mem_prefixed _ _ (by decide) hp_nl
        · exact newline_not_mem_prefixed _ _ (by decide) hjoin_nl
      have hfold : List.foldl memStep memParseInit
          ["Item: ".toList ++ t, "ID: ".toList ++ m.sb_id,
           "Type: ".toList ++ ty, "Path: ".toList ++ m.path,
           "Tags: ".toList ++ pyJoin ", ".toList m.tags] =
          { title := some (pyStrip t), sb_id := some (pyStrip m.sb_id),
            item_type := some (pyStrip ty), path := some (pyStrip m.path),
            tags := ((pySplitChar ','
              (pyStrip (pyJoin ", ".toList m.tags))).map pyStrip).filter
                (fun x => !x.isEmpty),
            status := none } := rfl
      have hparse : parse_memory_item m.to_memory_text = some
          { sb_id := m.sb_id, title := .vstr (pyStrip t), item_type := .vstr ty,
            path := m.path, tags := m.tags, status := none } := by
        simp only [parse_memory_item, hmarker, Bool.false_eq_true, if_false]
        rw [hsplit, hfold]
        dsimp only
        rw [if_neg (by
          simp [pyOptStrTruthy, hid_strip, hp_strip, hty_strip, ht_ne, hid_ne,
            hty_ne, hp_ne])]
        rw [hid_strip]
        rw [if_neg (by simp [hid_match])]
        rw [hty_strip, hp_strip, hjoin_strip,
          tags_roundtrip m.tags
            (fun tg htg => ⟨(htags tg htg).1, (htags tg htg).2.1,
              (htags tg htg).2.2.1⟩) htagne]
        rfl
      exact ⟨_, hparse, rfl, by rw [hty], rfl, by rw [hstat0]⟩
  · have hv : pyValTruthy (.vstr sv) = true := by
      simp [pyValTruthy, hsv_ne]
    by_cases htag0 : m.tags.isEmpty
    · -- status, no tags
      have htag : m.tags = [] := by simpa using htag0
      have hL : m.to_memory_text =
          pyJoin "\n".toList
            ["Item: ".toList ++ t, "ID: ".toList ++ m.sb_id,
             "Type: ".toList ++ ty, "Path: ".toList ++ m.path,
             "Status: ".toList ++ sv] := by
        simp only [ItemMetadata.to_memory_text, ht, hty, hsv, htag, pyStr, hv]
        simp
      have hstrip : pyStrip m.to_memory_text = m.to_memory_text := by
        rw [hL]
        exact pyStrip_join_fixed ("Item: ".toList ++ t)
          ["ID: ".toList ++ m.sb_id, "Type: ".toList ++ ty, "Path: ".toList ++ m.path]
          ("Status: ".toList ++ sv) 'I' ("tem: ".toList ++ t) rfl (by decide)
          (pyRstrip_append "Status: ".toList sv (pyStrip_parts _ hsv_strip).2 hsv_ne)
          (by simp)
      have hsplit : pySplitChar '\n' (pyStrip m.to_memory_text) =
          ["Item: ".toList ++ t, "ID: ".toList ++ m.sb_id,
           "Type: ".toList ++ ty, "Path: ".toList ++ m.path,
           "Status: ".toList ++ sv] := by
        rw [hstrip, hL, hsep]
        refine pySplitChar_pyJoin '\n' _ (by simp) ?_
        intro l hl
        simp only [List.mem_cons, List.not_mem_nil, or_false] at hl
        rcases hl with rfl | rfl | rfl | rfl | rfl
        · exact newline_not_mem_prefixed _ _ (by decide) ht_nl
        · exact newline_not_mem_prefixed _ _ (by decide) hid_nl
        · exact newline_not_mem_prefixed _ _ (by decide) hty_nl
        · exact newline_not_mem_prefixed _ _ (by decide) hp_nl
        · exact newline_not_mem_prefixed _ _ (by decide) hsv_nl
      have hfold : List.foldl memStep memParseInit
          ["Item: ".toList ++ t, "ID: ".toList ++ m.sb_id,
           "Type: ".toList ++ ty, "Path: ".toList ++ m.path,
           "Status: ".toList ++ sv] =
          { title := some (pyStrip t), sb_id := some (pyStrip m.sb_id),
            item_type := some (pyStrip ty), path := some (pyStrip m.path),
            tags := [], status := some (pyStrip sv) } := rfl
      have hparse : parse_memory_item m.to_memory_text = some
          { sb_id := m.sb_id, title := .vstr (pyStrip t), item_type := .vstr ty,
            path := m.path, tags := [], status := some (.vstr sv) } := by
        simp only [parse_memory_item, hmarker, Bool.false_eq_true, if_false]
        rw [hsplit, hfold]
        dsimp only
        rw [if_neg (by
          simp [pyOptStrTruthy, hid_strip, hp_strip, hty_strip, ht_ne, hid_ne,
            hty_ne, hp_ne])]
        rw [hid_strip]
        rw [if_neg (by simp [hid_match])]
        rw [hty_strip, hp_strip, hsv_strip]
        rfl
      exact ⟨_, hparse, rfl, by rw [hty], by rw [htag], by rw [hsv]⟩
    · -- status and tags
      have htagne : m.tags ≠ [] := by
        intro h0
        rw [h0] at htag0
        exact htag0 rfl
      have hjoin_strip : pyStrip (pyJoin ", ".toList m.tags) =
          pyJoin ", ".toList m.tags :=
        pyStrip_pyJoin_tags m.tags htagne
          (fun tg htg => ⟨(htags tg htg).1, (htags tg htg).2.1⟩)
      have hjoin_nl : '\n' ∉ pyJoin ", ".toList m.tags := by
        intro hmem
        rcases mem_pyJoin ", ".toList m.tags '\n' hmem with hs | ⟨l, hl, hc⟩
        · exact absurd hs (by decide)
        · exact (htags l hl).2.2.2 hc
      have hL : m.to_memory_text =
          pyJoin "\n".toList
            ["Item: ".toList ++ t, "ID: ".toList ++ m.sb_id,
             "Type: ".toList ++ ty, "Path: ".toList ++ m.path,
             "Tags: ".toList ++ pyJoin ", ".toList m.tags,
             "Status: ".toList ++ sv] := by
        simp only [ItemMetadata.to_memory_text, ht, hty, hsv, pyStr, hv]
        simp [htag0]
      have hstrip : pyStrip m.to_memory_text = m.to_memory_text := by
        rw [hL]
        exact pyStrip_join_fixed ("Item: ".toList ++ t)
          ["ID: ".toList ++ m.sb_id, "Type: ".toList ++ ty,
           "Path: ".toList ++ m.path,
           "Tags: ".toList ++ pyJoin ", ".toList m.tags]
          ("Status: ".toList ++ sv) 'I' ("tem: ".toList ++ t) rfl (by decide)
          (pyRstrip_append "Status: ".toList sv (pyStrip_parts _ hsv_strip).2 hsv_ne)
          (by simp)
      have hsplit : pySplitChar '\n' (pyStrip m.to_memory_text) =
          ["Item: ".toList ++ t, "ID: ".toList ++ m.sb_id,
           "Type: ".toList ++ ty, "Path: ".toList ++ m.path,
           "Tags: ".toList ++ pyJoin ", ".toList m.tags,
           "Status: ".toList ++ sv] := by
        rw [hstrip, hL, hsep]
        refine pySplitChar_pyJoin '\n' _ (by simp) ?_
        intro l hl
        simp only [List.mem_cons, List.not_mem_nil, or_false] at hl
        rcases hl with rfl | rfl | rfl | rfl | rfl | rfl
        · exact newline_not_mem_prefixed _ _ (by decide) ht_nl
        · exact newline_not_mem_prefixed _ _ (by decide) hid_nl
        · exact newline_not_mem_prefixed _ _ (by decide) hty_nl
        · exact newline_not_mem_prefixed _ _ (by decide) hp_nl
        · exact newline_not_mem_prefixed _ _ (by decide) hjoin_nl
        · exact newline_not_mem_prefixed _ _ (by decide) hsv_nl
      have hfold : List.foldl memStep memParseInit
          ["Item: ".toList ++ t, "ID: ".toList ++ m.sb_id,
           "Type: ".toList ++ ty, "Path: ".toList ++ m.path,
           "Tags: ".toList ++ pyJoin ", ".toList m.tags,
           "Status: ".toList ++ sv] =
          { title := some (pyStrip t), sb_id := some (pyStrip m.sb_id),
            item_type := some (pyStrip ty), path := some (pyStrip m.path),
            tags := ((pySplitChar ','
              (pyStrip (pyJoin ", ".toList m.tags))).map pyStrip).filter
                (fun x => !x.isEmpty),
            status := some (pyStrip sv) } := rfl
      have hparse : parse_memory_item m.to_memory_text = some
          { sb_id := m.sb_id, title := .vstr (pyStrip t), item_type := .vstr ty,
            path := m.path, tags := m.tags, status := some (.vstr sv) } := by
        simp only [parse_memory_item, hmarker, Bool.false_eq_true, if_false]
        rw [hsplit, hfold]
        dsimp only
        rw [if_neg (by
          simp [pyOptStrTruthy, hid_strip, hp_strip, hty_strip, ht_ne, hid_ne,
            hty_ne, hp_ne])]
        rw [hid_strip]
        rw [if_neg (by simp [hid_match])]
        rw [hty_strip, hp_strip, hsv_strip, hjoin_strip,
          tags_roundtrip m.tags
            (fun tg htg => ⟨(htags tg htg).1, (htags tg htg).2.1,
              (htags tg htg).2.2.1⟩) htagne]
        rfl
      exact ⟨_, hparse, rfl, by rw [hty], rfl, by rw [hsv]⟩

def mC5w : ItemMetadata :=
  { sb_id := "sb-1234567".toList, title := .vstr "Home Renovation".toList,
    item_type := .vstr "project".toList, path := "30-projects/x.md".toList,
    tags := ["home".toList, "budget".toList], status := some (.vstr "active".toList) }

/-- C5 witness for the amended claim, at a concrete project item with tags
    and a status. -/
theorem metadata_roundtrip_witness :
    ∃ m', parse_memory_item mC5w.to_memory_text = some m' ∧
      m'.sb_id = mC5w.sb_id ∧ m'.item_type = mC5w.item_type ∧
      m'.tags = mC5w.tags ∧ m'.status = mC5w.status :=
  metadata_roundtrip mC5w "Home Renovation".toList "project".toList rfl
    (by decide) (by decide) (by decide) rfl (by decide) (by decide) (by decide)
    (by decide) (by decide) (by decide) (by decide)
    (Or.inr ⟨"active".toList, rfl, by decide, by decide, by decide⟩) (by decide)
